import Mathlib

/-!
# PubMiner: document normalisation and the E-Utilities query chain

A shallow embedding of `DocumentHelper.js` and `search.js`.

JavaScript values are embedded as the type `JVal` of JSON-like values.
Modelling conventions, fixed once for the whole development:

* an object is the ordered list of its own properties (as `JSON.parse` or the
  XML converter produce them), with `Object.prototype` as its prototype.
  Reading a property looks for the first own entry with that key and then
  along the prototype chain, where it finds the built-ins of
  `Object.prototype` (`constructor`, `toString`, ..., and the accessor
  `__proto__`). Writing replaces the own entry in place or appends it, except
  for the key `__proto__`, which is taken by the accessor of
  `Object.prototype` and creates no own property;
* numbers are integers (the documents handled here carry ids and counts; the
  embedding is meant for the integers that a Number holds exactly), and a
  string is the sequence of its code points;
* the case mapping of `String.prototype.toLowerCase` belongs to the runtime
  and is a parameter (`toLower`) of the functions that call it;
* the id type given to `getLinkedIdsByType` is a string, as at its call site
  (`'pmid'`), so that `===` against it is equality of strings;
* a JavaScript exception is the error of `Except JErr`; a rejected promise
  is the same error, so `.then` is the bind of `Except` and `.catch` a match
  on the error;
* functions passed in by the caller (`xform`) are total pure functions;
* collaborators that are not part of the repository (the XML parser, the HTTP
  transport, the process environment) are parameters.
-/

set_option autoImplicit false

namespace PubMiner

/-! ## Values and errors -/

/-- JSON-like JavaScript values, and the built-ins that a property read can
reach through a prototype: `builtin name` is the built-in function `name`
(`Object`, `hasOwnProperty`, ...) or the prototype object `name`
(`Object.prototype`, `Array.prototype`, ...). -/
inductive JVal where
  | undefined : JVal
  | null : JVal
  | bool (b : Bool) : JVal
  | num (n : Int) : JVal
  | str (s : String) : JVal
  | arr (items : List JVal) : JVal
  | obj (props : List (String × JVal)) : JVal
  | builtin (name : String) : JVal

instance : Inhabited JVal := ⟨JVal.undefined⟩

/-- Modelled from the spec: the module `./Errors` is not among the sources; its
`InvalidDocumentFormatError` wraps the error that caused it.  `typeError` is
the built-in `TypeError` (property read on `undefined`/`null`, call of a
non-function), `host` an error reported by an external collaborator. -/
inductive JErr where
  | typeError : JErr
  | host (message : String) : JErr
  | invalidDocumentFormat (cause : JErr) : JErr

/-- The error is an `InvalidDocumentFormatError`. -/
def JErr.isInvalidDocumentFormat : JErr → Bool
  | .invalidDocumentFormat _ => true
  | _ => false

/-- JavaScript truthiness (`ToBoolean`). -/
def truthy : JVal → Bool
  | .undefined => false
  | .null => false
  | .bool b => b
  | .num n => n != 0
  | .str s => s != ""
  | .arr _ => true
  | .obj _ => true
  | .builtin _ => true

/-- The value is `undefined` or `null`. -/
def isNullish : JVal → Bool
  | .undefined => true
  | .null => true
  | _ => false

/-- Own-property lookup in a property list: the first entry with key `k`. -/
def lookupProp (k : String) : List (String × JVal) → Option JVal
  | [] => none
  | (k', v) :: rest => if k' = k then some v else lookupProp k rest

/-- The property list has an own property `k` (whatever its value). -/
def hasKey (ps : List (String × JVal)) (k : String) : Prop :=
  ∃ v, lookupProp k ps = some v

/-- Definition of the own property `k` on a property list: replace in place
or append. -/
def setOwn (k : String) (v : JVal) : List (String × JVal) → List (String × JVal)
  | [] => [(k, v)]
  | (k', v') :: rest => if k' = k then (k, v) :: rest else (k', v') :: setOwn k v rest

/-- Assignment `o[k] = v` on the property list of an object whose prototype is
`Object.prototype`. The key `__proto__` is taken by the accessor of
`Object.prototype`: the assignment creates no own property (for an object or
`null` as value it replaces the prototype of `o` instead, which the property
list does not record). Every other key sets the own property. -/
def setProp (k : String) (v : JVal) (ps : List (String × JVal)) : List (String × JVal) :=
  if k = "__proto__" then ps else setOwn k v ps

/-- The names of the methods of `Object.prototype`. -/
def objectPrototypeMethods : List String :=
  ["__defineGetter__", "__defineSetter__", "hasOwnProperty", "__lookupGetter__",
   "__lookupSetter__", "isPrototypeOf", "propertyIsEnumerable", "toString", "valueOf",
   "toLocaleString"]

/-- The key names a property that every value inherits through
`Object.prototype`. -/
def isInheritedName (k : String) : Bool :=
  k == "constructor" || k == "__proto__" || objectPrototypeMethods.contains k

/-- What a read of the key `k` finds along the prototype chain of a value with
the constructor `kind` (`Object`, `Array`, `String`, `Number`, `Boolean`)
that has no own property `k`: the constructor, the prototype object (through
the accessor `__proto__`), a method of the name `k`, or nothing. The further
methods of `Array.prototype`, `String.prototype`, `Number.prototype` and
`Boolean.prototype` depend on the version of the runtime and are not listed:
as property values they read as `undefined` here. -/
def inherited (kind : String) (k : String) : JVal :=
  if k = "constructor" then .builtin kind
  else if k = "__proto__" then .builtin (kind ++ ".prototype")
  else if objectPrototypeMethods.contains k then .builtin k
  else .undefined

/-- The number written by a list of decimal digits, continuing from `n`. -/
def digitsValue : List Char → Nat → Option Nat
  | [], n => some n
  | c :: cs, n => if c.isDigit then digitsValue cs (10 * n + (c.toNat - 48)) else none

/-- The array index denoted by a property key, if it is a canonical one:
`"0"`, or decimal digits without a leading zero. -/
def arrayIndex? (k : String) : Option Nat :=
  match k.data with
  | [] => none
  | [c] => if c.isDigit then some (c.toNat - 48) else none
  | c :: cs => if c = '0' then none else digitsValue (c :: cs) 0

/-- Property read `v.k` / `v[k]` with a string key. Reading from `undefined`
or `null` throws a `TypeError`; a property that the value does not have of
its own is read along the prototype chain, and reads as `undefined` when it
is not found there. The properties of a built-in are not modelled: the code
reads from such a value only by names that no built-in has (`articleids`,
`uid`, `title`, ...). -/
def getProp (v : JVal) (k : String) : Except JErr JVal :=
  match v with
  | .undefined => .error .typeError
  | .null => .error .typeError
  | .obj ps =>
    match lookupProp k ps with
    | some w => .ok w
    | none => .ok (inherited "Object" k)
  | .arr xs =>
    match arrayIndex? k with
    | some i => .ok (xs.getD i .undefined)
    | none => if k = "length" then .ok (.num xs.length) else .ok (inherited "Array" k)
  | .str s =>
    match arrayIndex? k with
    | some i =>
      match s.data.get? i with
      | some c => .ok (.str (String.singleton c))
      | none => .ok .undefined
    | none => if k = "length" then .ok (.num s.length) else .ok (inherited "String" k)
  | .bool _ => .ok (inherited "Boolean" k)
  | .num _ => .ok (inherited "Number" k)
  | .builtin _ => .ok .undefined

/-- Property read with a numeric index, `v[i]`. -/
def getIndex (v : JVal) (i : Nat) : Except JErr JVal :=
  match v with
  | .undefined => .error .typeError
  | .null => .error .typeError
  | .arr xs => .ok (xs.getD i .undefined)
  | .str s =>
    match s.data.get? i with
    | some c => .ok (.str (String.singleton c))
    | none => .ok .undefined
  | .obj ps => .ok ((lookupProp (toString i) ps).getD .undefined)
  | .bool _ => .ok .undefined
  | .num _ => .ok .undefined
  | .builtin _ => .ok .undefined

/-- Receiver of an array method (`reduce`, `find`, `map`, `forEach`): calling
the method on anything but an array throws a `TypeError`. The prototype
object `Array.prototype` is itself an array, an empty one. -/
def asArray : JVal → Except JErr (List JVal)
  | .arr xs => .ok xs
  | .builtin name => if name = "Array.prototype" then .ok [] else .error .typeError
  | _ => .error .typeError

/-- Strict equality `v === s` against a string. -/
def strictEqStr (v : JVal) (s : String) : Bool :=
  match v with
  | .str t => t == s
  | _ => false

/-- The sequence `Array.prototype.find` with a predicate that may throw: the
first element for which the predicate holds, `undefined` if there is none. -/
def arrayFind (p : JVal → Except JErr Bool) : List JVal → Except JErr JVal
  | [] => .ok .undefined
  | x :: xs =>
    match p x with
    | .error e => .error e
    | .ok true => .ok x
    | .ok false => arrayFind p xs

mutual
/-- JavaScript `ToString`, used for computed property keys and in template
strings. -/
def jsToString (v : JVal) : String :=
  match v with
  | .undefined => "undefined"
  | .null => "null"
  | .bool true => "true"
  | .bool false => "false"
  | .num n => toString n
  | .str s => s
  | .arr xs => joinItems xs
  | .obj _ => "[object Object]"
  | .builtin name =>
    if name = "Object.prototype" then "[object Object]"
    else if name = "Array.prototype" then ""
    else if name = "String.prototype" then ""
    else if name = "Number.prototype" then "0"
    else if name = "Boolean.prototype" then "false"
    else "function " ++ name ++ "() { [native code] }"
termination_by structural v
/-- The text of `Array.prototype.join` with the separator `","`: `undefined`
and `null` elements contribute the empty string. -/
def joinItems (xs : List JVal) : String :=
  match xs with
  | [] => ""
  | x :: rest =>
    (match x with
      | .undefined => ""
      | .null => ""
      | v => jsToString v) ++ (match rest with | [] => "" | _ :: _ => "," ++ joinItems rest)
termination_by structural xs
end

/-! ## DocumentHelper -/

/-- The predicate `idObj => idObj.idtype === idType` given to `find`. -/
def idTypeIs (idType : String) (idObj : JVal) : Except JErr Bool := do
  let t ← getProp idObj "idtype"
  pure (strictEqStr t idType)

/-- One step of the `reduce` in `getLinkedIdsByType`: look up `result[uid]`,
search its `articleids` for the first entry of type `idType`, and record its
transformed value under `uid` when one is found. -/
def linkedIdStep (result : JVal) (idType : String) (xform : JVal → JVal)
    (acc : List (String × JVal)) (uid : JVal) : Except JErr (List (String × JVal)) := do
  let entry ← getProp result (jsToString uid)
  let articleids ← getProp entry "articleids"
  let ids ← asArray articleids
  let linkedId ← arrayFind (idTypeIs idType) ids
  if truthy linkedId then do
    let value ← getProp linkedId "value"
    pure (setProp (jsToString uid) (xform value) acc)
  else
    pure acc

/-- The left fold of `Array.prototype.reduce` with a callback that may throw. -/
def reduceM {α : Type} (f : α → JVal → Except JErr α) : α → List JVal → Except JErr α
  | acc, [] => .ok acc
  | acc, x :: xs =>
    match f acc x with
    | .error e => .error e
    | .ok acc' => reduceM f acc' xs

/-- Embedding of `DocumentHelper.getLinkedIdsByType`. -/
def getLinkedIdsByType (summaryDocument : JVal) (idType : String) (xform : JVal → JVal) :
    Except JErr JVal := do
  let result ← getProp summaryDocument "result"
  let uids ← getProp result "uids"
  let uidList ← asArray uids
  let acc ← reduceM (linkedIdStep result idType xform) [] uidList
  pure (.obj acc)

/-! ## Linked ids: what the fold computes -/

/-- The entry `e` of an `articleids` list carries the id type `idType`. -/
def hasIdType (idType : String) (e : JVal) : Bool :=
  match getProp e "idtype" with
  | .ok t => strictEqStr t idType
  | .error _ => false

/-- The first entry of type `idType` in `result[k].articleids`, if any. -/
def linkedIdOf (result : JVal) (idType : String) (k : String) : Option JVal :=
  match getProp result k with
  | .ok entry =>
    match getProp entry "articleids" with
    | .ok (.arr ids) => ids.find? (hasIdType idType)
    | _ => none
  | .error _ => none

/-- The `value` property of an id entry (`undefined` when it cannot be read). -/
def valueOf (e : JVal) : JVal :=
  match getProp e "value" with
  | .ok v => v
  | .error _ => .undefined

/-- Every uid of the list has an entry in `result` with an `articleids` array
none of whose elements is `undefined` or `null`. -/
def UidsHaveArticleIds (result : JVal) (uids : List String) : Prop :=
  ∀ u ∈ uids, ∃ entry ids, getProp result u = .ok entry ∧
    getProp entry "articleids" = .ok (.arr ids) ∧ ∀ e ∈ ids, isNullish e = false

/-- The uid `k` has, in `result[k].articleids`, an entry whose `idtype` is
`idType`. -/
def HasLinkedId (result : JVal) (idType : String) (k : String) : Prop :=
  ∃ entry ids e, getProp result k = .ok entry ∧ getProp entry "articleids" = .ok (.arr ids) ∧
    e ∈ ids ∧ getProp e "idtype" = .ok (.str idType)

/-- The `result` part of the example summary: uids `A` and `B`, `A` with a
`pmid` id `111`, `B` without one. -/
def resultAB : JVal :=
  .obj [
    ("uids", .arr [.str "A", .str "B"]),
    ("A", .obj [("uid", .str "A"),
      ("articleids", .arr [.obj [("idtype", .str "pmid"), ("value", .str "111")],
                           .obj [("idtype", .str "doi"), ("value", .str "10.1/x")]])]),
    ("B", .obj [("uid", .str "B"),
      ("articleids", .arr [.obj [("idtype", .str "doi"), ("value", .str "10.1/y")]])])]

/-- The summary document of the example. -/
def docAB : JVal := .obj [("result", resultAB)]

/-- The uid `u` is listed without an entry in `result`, or its entry has no
`articleids` property. -/
def LacksArticleIds (result : JVal) (u : String) : Prop :=
  getProp result u = .ok .undefined ∨
    ∃ entry, getProp result u = .ok entry ∧ getProp entry "articleids" = .ok .undefined

/-- A summary document that lists the uid `A` but has no entry for it. -/
def docNoEntry : JVal := .obj [("result", .obj [("uids", .arr [.str "A"])])]

/-- The handler `catch (err) { throw new Errors.InvalidDocumentFormatError(err) }`
around a `try` block: any exception of the block is rethrown wrapped. -/
def catchAsInvalidDocument (body : Except JErr JVal) : Except JErr JVal :=
  match body with
  | .ok v => .ok v
  | .error err => .error (.invalidDocumentFormat err)

/-- Embedding of `DocumentHelper.extractSearchResults`. -/
def extractSearchResults (searchDocument query : JVal) : Except JErr JVal :=
  catchAsInvalidDocument (do
    let r1 ← getProp searchDocument "esearchresult"
    let webenv ← getProp r1 "webenv"
    let r2 ← getProp searchDocument "esearchresult"
    let querykey ← getProp r2 "querykey"
    let r3 ← getProp searchDocument "esearchresult"
    let count ← getProp r3 "count"
    let r4 ← getProp searchDocument "esearchresult"
    let retmax ← getProp r4 "retmax"
    pure (.obj [("webenv", webenv), ("querykey", querykey), ("searchTerm", query),
      ("itemsFound", count), ("itemsReturned", retmax)]))

/-- Embedding of `DocumentHelper.extractEnvironmentFromLinkResults`. -/
def extractEnvironmentFromLinkResults (linkDocument previousQueryKey : JVal) :
    Except JErr JVal :=
  catchAsInvalidDocument (do
    let linksets ← getProp linkDocument "linksets"
    let lnkSet ← getIndex linksets 0
    let histories ← getProp lnkSet "linksetdbhistories"
    if truthy histories then do
      let webenv ← getProp lnkSet "webenv"
      let hs ← getProp lnkSet "linksetdbhistories"
      let first ← getIndex hs 0
      let querykey ← getProp first "querykey"
      pure (.obj [("webenv", webenv), ("querykey", querykey)])
    else do
      let webenv ← getProp lnkSet "webenv"
      pure (.obj [("webenv", webenv), ("querykey", previousQueryKey)]))

/-- A link document without a link-history section. -/
def linkDocNoHistory : JVal :=
  .obj [("linksets", .arr [.obj [("dbfrom", .str "pubmed"), ("webenv", .str "NCID_1_2")]])]

/-- A link document whose first link set has neither `webenv` nor a
link-history section. -/
def linkDocNoWebenv : JVal :=
  .obj [("linksets", .arr [.obj [("dbfrom", .str "pubmed")]])]

/-- A link document whose first link set has a link-history section but no
`webenv`. -/
def linkDocHistoryNoWebenv : JVal :=
  .obj [("linksets", .arr [.obj [("dbfrom", .str "pubmed"),
    ("linksetdbhistories", .arr [.obj [("dbto", .str "pmc"), ("querykey", .str "2")]])]])]

/-- A search document whose `esearchresult` lacks `webenv`. -/
def searchDocNoWebenv : JVal :=
  .obj [("esearchresult", .obj [("count", .str "5"), ("retmax", .str "5"),
    ("querykey", .str "1")])]

/-- A complete search document. -/
def searchDocFull : JVal :=
  .obj [("esearchresult", .obj [("count", .str "5"), ("retmax", .str "5"),
    ("querykey", .str "1"), ("webenv", .str "NCID_1_2")])]

/-- A chain of property reads `v.k₁.k₂. ... .kₙ`, failing at the first read
from `undefined` or `null`. -/
def readPath (v : JVal) : List String → Except JErr JVal
  | [] => .ok v
  | k :: ks =>
    match getProp v k with
    | .error e => .error e
    | .ok w => readPath w ks

/-- The case mapping of the ASCII letters `A` to `Z`, every other character
unchanged: what `String.prototype.toLowerCase` does on a string of ASCII
characters. It stands for the runtime's case mapping in the examples, whose
labels and titles are ASCII. -/
def lowerCase (s : String) : String :=
  String.mk (s.data.map Char.toLower)

/-- The method call `v.toLowerCase()`: defined on strings, where it applies
the case mapping `toLower` of the runtime, a `TypeError` on every other
value. -/
def toLowerCase (toLower : String → String) : JVal → Except JErr String
  | .str s => .ok (toLower s)
  | _ => .error .typeError

/-- `Array.isArray`. -/
def isArray : JVal → Bool
  | .arr _ => true
  | .builtin name => name == "Array.prototype"
  | _ => false

/-- The name of a built-in is that of a prototype object. -/
def isPrototypeObject (name : String) : Bool :=
  name == "Object.prototype" || name == "Array.prototype" || name == "String.prototype" ||
  name == "Number.prototype" || name == "Boolean.prototype"

/-- The test `typeof v === 'object'`: arrays, objects (the prototype objects
among the built-ins included) and `null`. -/
def typeofIsObject : JVal → Bool
  | .arr _ => true
  | .obj _ => true
  | .null => true
  | .builtin name => isPrototypeObject name
  | _ => false

/-- Embedding of `DocumentHelper.convertXmlToJson`: the promise of the parsed
document, rejected with an `InvalidDocumentFormatError` when the XML parser
reports an error. The parser `xmlSimple.parse` is a parameter. -/
def convertXmlToJson (parse : String → Except JErr JVal) (xmlDetailDocument : String) :
    Except JErr JVal :=
  match parse xmlDetailDocument with
  | .error err => .error (.invalidDocumentFormat err)
  | .ok parsed => .ok parsed

/-- The body of the `forEach` over the abstract's segments:
`result[abstractTxt['@'].Label.toLowerCase()] = abstractTxt['#']`. -/
def abstractSegmentStep (toLower : String → String) (result : List (String × JVal))
    (abstractTxt : JVal) : Except JErr (List (String × JVal)) := do
  let attrs ← getProp abstractTxt "@"
  let label ← getProp attrs "Label"
  let key ← toLowerCase toLower label
  let text ← getProp abstractTxt "#"
  pure (setProp key text result)

/-- Embedding of `DocumentHelper.extractAbstract`: the outcome of the promise
it returns (`.ok` resolved, `.error` rejected). The case mapping `toLower` of
the runtime and the XML parser are parameters. -/
def extractAbstract (toLower : String → String) (parse : String → Except JErr JVal)
    (detailDocument : String) : Except JErr JVal :=
  catchAsInvalidDocument (do
    let json ← convertXmlToJson parse detailDocument
    let abstract ← readPath json
      ["PubmedArticle", "MedlineCitation", "Article", "Abstract", "AbstractText"]
    if isArray abstract then do
      let segments ← asArray abstract
      let result ← reduceM (abstractSegmentStep toLower) [] segments
      pure (.obj result)
    else if truthy abstract && typeofIsObject abstract then do
      let text ← getProp abstract "#"
      pure (.obj [("abstract", text)])
    else
      pure (.obj [("abstract", abstract)]))

/-- The value `seg` is a segment with the `Label` attribute `l` and the text
payload `t`. -/
def IsSegment (seg : JVal) (l : String) (t : JVal) : Prop :=
  ∃ attrs, getProp seg "@" = .ok attrs ∧ getProp attrs "Label" = .ok (.str l) ∧
    getProp seg "#" = .ok t

/-- The text of the last labelled segment whose lower-cased label is `k`. -/
def lastWithLabel (toLower : String → String) (k : String)
    (labelled : List (String × JVal)) : Option JVal :=
  (labelled.reverse.find? (fun lt => toLower lt.1 == k)).map Prod.snd

/-- A parsed detail document with the given `AbstractText` node. -/
def detailWithAbstractText (node : JVal) : JVal :=
  .obj [("PubmedArticle", .obj [("MedlineCitation", .obj [("Article",
    .obj [("Abstract", .obj [("AbstractText", node)])])])])]

/-- A parsed detail document whose `Abstract` node has no `AbstractText`. -/
def detailWithoutAbstractText : JVal :=
  .obj [("PubmedArticle", .obj [("MedlineCitation", .obj [("Article",
    .obj [("Abstract", .obj [])])])])]

/-- The segments of the example: labels `Background` and `Results`. -/
def segmentsBackgroundResults : List JVal :=
  [.obj [("@", .obj [("Label", .str "Background")]), ("#", .str "text1")],
   .obj [("@", .obj [("Label", .str "Results")]), ("#", .str "text2")]]

/-! ## search.js -/

/-- The code points that `String.prototype.trim` removes: the ECMAScript
white space and line terminator characters. -/
def isJsWhitespace (c : Char) : Bool :=
  let n := c.toNat
  n = 0x09 || n = 0x0A || n = 0x0B || n = 0x0C || n = 0x0D || n = 0x20 || n = 0xA0 ||
  n = 0x1680 || (0x2000 ≤ n && n ≤ 0x200A) || n = 0x2028 || n = 0x2029 || n = 0x202F ||
  n = 0x205F || n = 0x3000 || n = 0xFEFF

/-- `String.prototype.trim` on the text of a string. -/
def jsTrim (s : String) : String :=
  String.mk ((s.data.dropWhile isJsWhitespace).reverse.dropWhile isJsWhitespace).reverse

/-- The method call `v.trim()`: defined on strings, a `TypeError` on every
other value. -/
def trim : JVal → Except JErr String
  | .str s => .ok (jsTrim s)
  | _ => .error .typeError

/-- The test `typeof searchTerm === "undefined" || searchTerm.trim().length === 0`. -/
def isEmptySearch (searchTerm : JVal) : Except JErr Bool :=
  match searchTerm with
  | .undefined => .ok true
  | v => do
    let t ← trim v
    pure (t.length == 0)

/-- The answer of the transport to one request: the `err` and `body` arguments
that `httpRequest` passes to its callback. -/
structure Response where
  err : JVal
  body : JVal

/-- What one call of `pubMedApi.search` does: the urls requested from the
transport, in order; the arguments with which the caller's callback is
invoked, in order; and the exception left uncaught, if any. -/
structure SearchRun where
  requests : List String
  delivered : List JVal
  thrown : Option JErr

/-- The base url `eUtilsBaseUrl` for all E-Utilities requests. -/
def eUtilsBaseUrl : String := "https://eutils.ncbi.nlm.nih.gov/entrez/eutils/"

/-- The api key parameter: `&api_key=<value>` when `process.env.EUTILS_API_KEY`
is set to a non-empty string, the empty string otherwise. -/
def apiKeyParam (envApiKey : Option String) : String :=
  match envApiKey with
  | some k => if k ≠ "" then "&api_key=" ++ k else ""
  | none => ""

/-- The E-Search url. -/
def searchUrl (apiKey : String) (searchTerm : String) : String :=
  let db := "pubmed"
  let filter := "Therapy/Broad[filter]"
  let searchTermWithFilter := "(" ++ filter ++ ") AND (" ++ searchTerm ++ ")"
  eUtilsBaseUrl ++ "esearch.fcgi?db=" ++ db ++ "&term=" ++ searchTermWithFilter
    ++ "&retmode=json&usehistory=y" ++ apiKey

/-- The E-Link url built from a query key and a web environment. -/
def linkUrl (apiKey : String) (querykey webenv : String) : String :=
  let dbfrom := "pubmed"
  let db := "pmc"
  let linkname := "pubmed_pmc"
  eUtilsBaseUrl ++ "elink.fcgi?db=" ++ db ++ "&dbfrom=" ++ dbfrom ++ "&linkname=" ++ linkname
    ++ "&query_key=" ++ querykey ++ "&WebEnv=" ++ webenv ++ "&cmd=neighbor_history&retmode=json"
    ++ apiKey

/-- The E-Summary url built from a query key and a web environment. -/
def summaryUrl (apiKey : String) (querykey webenv : String) : String :=
  let db := "pubmed"
  eUtilsBaseUrl ++ "esummary.fcgi?db=" ++ db ++ "&query_key=" ++ querykey ++ "&WebEnv=" ++ webenv
    ++ "&retmode=json&retmax=100" ++ apiKey

/-- The initial results object, "no results found". -/
def emptyResults : List (String × JVal) :=
  [("searchTerm", .str ""), ("itemsFound", .num 0), ("itemsReturned", .num 0),
    ("items", .arr [])]

/-- The E-Search callback after its error check: the results object with the
pieces known so far, and the E-Link url. -/
def onSearchBody (apiKey : String) (searchTerm : JVal) (results : List (String × JVal))
    (body : JVal) : Except JErr (List (String × JVal) × String) := do
  let results := setProp "searchTerm" searchTerm results
  let r1 ← getProp body "esearchresult"
  let count ← getProp r1 "count"
  let results := setProp "itemsFound" count results
  let r2 ← getProp body "esearchresult"
  let retmax ← getProp r2 "retmax"
  let results := setProp "itemsReturned" retmax results
  let r3 ← getProp body "esearchresult"
  let querykey ← getProp r3 "querykey"
  let r4 ← getProp body "esearchresult"
  let webenv ← getProp r4 "webenv"
  pure (results, linkUrl apiKey (jsToString querykey) (jsToString webenv))

/-- The E-Link callback after its error check: the E-Summary url. -/
def onLinkBody (apiKey : String) (body : JVal) : Except JErr String := do
  let l1 ← getProp body "linksets"
  let s1 ← getIndex l1 0
  let hs ← getProp s1 "linksetdbhistories"
  let h ← getIndex hs 0
  let querykey ← getProp h "querykey"
  let l2 ← getProp body "linksets"
  let s2 ← getIndex l2 0
  let webenv ← getProp s2 "webenv"
  pure (summaryUrl apiKey (jsToString querykey) (jsToString webenv))

/-- The E-Summary callback after its error check: every uid of
`body.result.uids` pushes `body.result[uid]` onto `results.items`. -/
def onSummaryBody (results : List (String × JVal)) (body : JVal) :
    Except JErr (List (String × JVal)) := do
  let r ← getProp body "result"
  let uids ← getProp r "uids"
  let uidList ← asArray uids
  let items ← reduceM (fun (items : List JVal) element => do
    let r' ← getProp body "result"
    let item ← getProp r' (jsToString element)
    pure (items ++ [item])) [] uidList
  pure (setProp "items" (.arr items) results)

/-- Embedding of `pubMedApi.search`. The transport `httpRequest` answers a url
with the arguments of the request callback; `envApiKey` is the value of
`process.env.EUTILS_API_KEY`. -/
def search (envApiKey : Option String) (httpRequest : String → Response) (searchTerm : JVal) :
    SearchRun :=
  let apiKey := apiKeyParam envApiKey
  let results := emptyResults
  match isEmptySearch searchTerm with
  | .error e => { requests := [], delivered := [], thrown := some e }
  | .ok true => { requests := [], delivered := [.obj results], thrown := none }
  | .ok false =>
    let searchUrl := searchUrl apiKey (jsToString searchTerm)
    let r1 := httpRequest searchUrl
    if truthy r1.err then { requests := [searchUrl], delivered := [], thrown := none }
    else
      match onSearchBody apiKey searchTerm results r1.body with
      | .error e => { requests := [searchUrl], delivered := [], thrown := some e }
      | .ok (results, linkUrl) =>
        let r2 := httpRequest linkUrl
        if truthy r2.err then
          { requests := [searchUrl, linkUrl], delivered := [], thrown := none }
        else
          match onLinkBody apiKey r2.body with
          | .error e => { requests := [searchUrl, linkUrl], delivered := [], thrown := some e }
          | .ok summaryUrl =>
            let r3 := httpRequest summaryUrl
            if truthy r3.err then
              { requests := [searchUrl, linkUrl, summaryUrl], delivered := [], thrown := none }
            else
              match onSummaryBody results r3.body with
              | .error e =>
                { requests := [searchUrl, linkUrl, summaryUrl], delivered := [],
                  thrown := some e }
              | .ok results =>
                { requests := [searchUrl, linkUrl, summaryUrl], delivered := [.obj results],
                  thrown := none }

/-- The body of an E-Search answer carries the query key `qk` and the web
environment `we` in its `esearchresult` section. -/
def IsSearchBody (body qk we : JVal) : Prop :=
  ∃ esr, getProp body "esearchresult" = .ok esr ∧ isNullish esr = false ∧
    getProp esr "querykey" = .ok qk ∧ getProp esr "webenv" = .ok we

/-- The body of an E-Link answer has a first link set with the web environment
`we` and a `linksetdbhistories` section whose first entry has the query key
`qk`. -/
def IsLinkBodyWithHistory (body qk we : JVal) : Prop :=
  ∃ linksets lnkSet histories first,
    getProp body "linksets" = .ok linksets ∧ getIndex linksets 0 = .ok lnkSet ∧
    getProp lnkSet "linksetdbhistories" = .ok histories ∧ getIndex histories 0 = .ok first ∧
    getProp first "querykey" = .ok qk ∧ getProp lnkSet "webenv" = .ok we

/-- A link document with a link-history section. -/
def linkDocWithHistory : JVal :=
  .obj [("linksets", .arr [.obj [("dbfrom", .str "pubmed"), ("webenv", .str "NCID_3_4"),
    ("linksetdbhistories", .arr [.obj [("dbto", .str "pmc"), ("querykey", .str "2")]])]])]

/-- A transport for the example run: it answers the E-Search url of the term
`flu` with `searchDocFull`, the E-Link url of that session with
`linkDocWithHistory`, and every other url with the summary `docAB`. -/
def exampleTransport (url : String) : Response :=
  if url = searchUrl "" "flu" then { err := .null, body := searchDocFull }
  else if url = linkUrl "" "1" "NCID_1_2" then { err := .null, body := linkDocWithHistory }
  else { err := .null, body := docAB }

/-- A transport whose E-Link answer has no link-history section: it answers
the E-Search url of the term `flu` with `searchDocFull`, the E-Link url of
that session with `linkDocNoHistory`, and every other url with the summary
`docAB`. -/
def transportNoHistory (url : String) : Response :=
  if url = searchUrl "" "flu" then { err := .null, body := searchDocFull }
  else if url = linkUrl "" "1" "NCID_1_2" then { err := .null, body := linkDocNoHistory }
  else { err := .null, body := docAB }

/-- A transport that answers every request with an error. -/
def transportDown (_url : String) : Response :=
  { err := .obj [("code", .str "ETIMEDOUT")], body := .undefined }

/-- The property `k` of `v` when it can be read, `undefined` otherwise. -/
def readProp (v : JVal) (k : String) : JVal :=
  match getProp v k with
  | .ok w => w
  | .error _ => .undefined

/-- The body of an E-Search answer carries the counts `count` and `retmax` in
its `esearchresult` section. -/
def HasSearchCounts (body count retmax : JVal) : Prop :=
  ∃ esr, getProp body "esearchresult" = .ok esr ∧
    getProp esr "count" = .ok count ∧ getProp esr "retmax" = .ok retmax

/-- The body of an E-Summary answer has the section `result`, whose `uids`
list is `uids`. -/
def IsSummaryBody (body result : JVal) (uids : List String) : Prop :=
  getProp body "result" = .ok result ∧ getProp result "uids" = .ok (.arr (uids.map .str))

/-- A link document whose `linksets` list is empty. -/
def linkDocEmptyLinksets : JVal := .obj [("linksets", .arr [])]

/-- A link document whose first link set has an empty link-history section. -/
def linkDocEmptyHistory : JVal :=
  .obj [("linksets", .arr [.obj [("webenv", .str "NCID_3_4"),
    ("linksetdbhistories", .arr [])]])]

/-- A link document whose link-history section has two entries. -/
def linkDocTwoHistories : JVal :=
  .obj [("linksets", .arr [.obj [("dbfrom", .str "pubmed"), ("webenv", .str "NCID_3_4"),
    ("linksetdbhistories", .arr [.obj [("dbto", .str "pmc"), ("querykey", .str "2")],
      .obj [("dbto", .str "pmc"), ("querykey", .str "3")]])]])]

/-- The `result` part of a summary whose entry `A` has a `doi` id followed by
two `pmid` ids. -/
def resultTwoPmids : JVal :=
  .obj [
    ("uids", .arr [.str "A"]),
    ("A", .obj [("uid", .str "A"),
      ("articleids", .arr [.obj [("idtype", .str "doi"), ("value", .str "10.1/x")],
                           .obj [("idtype", .str "pmid"), ("value", .str "111")],
                           .obj [("idtype", .str "pmid"), ("value", .str "222")]])])]

/-- A summary document with two `pmid` ids for its only uid. -/
def docTwoPmids : JVal := .obj [("result", resultTwoPmids)]

/-! ## Merging the demographic details -/

/-- The own enumerable properties that `Object.assign` copies from a source:
the properties of an object, the indexed elements of an array, the indexed
characters of a string; nothing for any other value. -/
def ownEntries : JVal → List (String × JVal)
  | .obj ps => ps
  | .arr xs => xs.enum.map (fun p => (toString p.1, p.2))
  | .str s => s.data.enum.map (fun p => (toString p.1, JVal.str (String.singleton p.2)))
  | _ => []

/-- Copy the entries of a property list into `target`, in order. An entry
whose key was already copied is shadowed by the earlier entry with that key
(the first entry with a key is the object's property) and is skipped. -/
def assignFrom (seen : List String) (target : List (String × JVal)) :
    List (String × JVal) → List (String × JVal)
  | [] => target
  | (k, v) :: rest =>
    if k ∈ seen then assignFrom seen target rest
    else assignFrom (k :: seen) (setProp k v target) rest

/-- `Object.assign(target, source)` on the property list of the target. -/
def objectAssign (target : List (String × JVal)) (source : JVal) : List (String × JVal) :=
  assignFrom [] target (ownEntries source)

/-- The sequence `Array.prototype.map` with a callback that may throw. -/
def arrayMapM (f : JVal → Except JErr JVal) : List JVal → Except JErr (List JVal)
  | [] => .ok []
  | x :: xs =>
    match f x with
    | .error e => .error e
    | .ok y =>
      match arrayMapM f xs with
      | .error e => .error e
      | .ok ys => .ok (y :: ys)

/-- The callback of the `map` in `mergeDemographicAndSummaryResults`: the
record of one `resultItem`. -/
def mergeRecord (linkedIds demoDetails summaryResults : JVal) (resultItem : JVal) :
    Except JErr JVal := do
  let result ← getProp summaryResults "result"
  let summaryItem ← getProp result (jsToString resultItem)
  let uid1 ← getProp summaryItem "uid"
  let uid ← getProp linkedIds (jsToString uid1)
  let title ← getProp summaryItem "title"
  let authors ← getProp summaryItem "authors"
  let pubdate ← getProp summaryItem "pubdate"
  let uid2 ← getProp summaryItem "uid"
  let pmid ← getProp linkedIds (jsToString uid2)
  let pmcid ← getProp summaryItem "uid"
  let side ← getProp demoDetails (jsToString resultItem)
  let source := if truthy side then side else .obj []
  pure (.obj (objectAssign [("uid", uid), ("title", title), ("authors", authors),
    ("pubdate", pubdate), ("pmid", pmid), ("pmcid", pmcid)] source))

/-- Embedding of `DocumentHelper.mergeDemographicAndSummaryResults`. -/
def mergeDemographicAndSummaryResults (demoDetails summaryResults : JVal) :
    Except JErr JVal := do
  let linkedIds ← getLinkedIdsByType summaryResults "pmid" (fun x => x)
  let result ← getProp summaryResults "result"
  let uids ← getProp result "uids"
  let uidList ← asArray uids
  let records ← arrayMapM (mergeRecord linkedIds demoDetails summaryResults) uidList
  pure (.arr records)

/-- The primary fields of the record of a summary item, given the map of
linked ids. -/
def primaryFields (linkedIds : List (String × JVal)) (item : JVal) : List (String × JVal) :=
  [("uid", readProp (.obj linkedIds) (jsToString (readProp item "uid"))),
   ("title", readProp item "title"),
   ("authors", readProp item "authors"),
   ("pubdate", readProp item "pubdate"),
   ("pmid", readProp (.obj linkedIds) (jsToString (readProp item "uid"))),
   ("pmcid", readProp item "uid")]

/-- The source merged into the record of the uid `u`: `demoDetails[u] || {}`. -/
def sideSource (demoDetails : JVal) (u : String) : JVal :=
  if truthy (readProp demoDetails u) then readProp demoDetails u else .obj []

/-- The record of the uid `u`: its primary fields with the side entry merged
in. -/
def mergedRecord (linkedIds : List (String × JVal)) (demoDetails result : JVal) (u : String) :
    JVal :=
  .obj (objectAssign (primaryFields linkedIds (readProp result u)) (sideSource demoDetails u))

/-- Demographic details for the example summary: an entry for `A` only. -/
def demoA : JVal :=
  .obj [("A", .obj [("sentences", .arr [.str "Of 40 patients, 22 were women."]),
    ("title", .str "Annotated title")])]

/-- The entry of the uid `A` in the example summary with a title. -/
def resultABTitled : JVal :=
  .obj [
    ("uids", .arr [.str "A", .str "B"]),
    ("A", .obj [("uid", .str "A"), ("title", .str "On flu"),
      ("articleids", .arr [.obj [("idtype", .str "pmid"), ("value", .str "111")]])]),
    ("B", .obj [("uid", .str "B"), ("title", .str "On colds"),
      ("articleids", .arr [.obj [("idtype", .str "doi"), ("value", .str "10.1/y")]])])]

/-- The example summary document with titles. -/
def docABTitled : JVal := .obj [("result", resultABTitled)]

/-- Each listed summary item names itself: the `uid` field of `result[u]` is
`u`, as in the documents of the `esummary` API. -/
def ItemsNameThemselves (result : JVal) (uids : List String) : Prop :=
  ∀ u ∈ uids, ∃ item, getProp result u = .ok item ∧ getProp item "uid" = .ok (.str u)

/-! ## search.js: the detail fetch -/

/-- The helper `errorOf`: the object `{error: description}`. -/
def errorOf (description : String) : List (String × JVal) :=
  [("error", .str description)]

/-- The E-Fetch url of `fetchResultDetail`. -/
def efetchUrl (pmcId : String) : String :=
  eUtilsBaseUrl ++ "efetch.fcgi?db=pmc&id=" ++ pmcId ++ "&retmode=xml"

/-- The outcome of the XML parser: the `err` and `parsed` arguments that
`xmlSimple.parse` passes to its callback, which it calls before it returns. -/
structure ParseOutcome where
  err : JVal
  parsed : JVal

/-- What one call of `pubMedApi.fetchResultDetail` does: the urls requested
from the transport and the arguments with which the caller's callback is
invoked, in order. -/
structure FetchRun where
  requests : List String
  delivered : List JVal

/-- The body of the `forEach` over the sections of an abstract:
`result[s.title.toLowerCase()] = s.p["#"]`, after the same reads for the log
line. -/
def sectionStep (toLower : String → String) (result : List (String × JVal)) (s : JVal) :
    Except JErr (List (String × JVal)) := do
  let title ← getProp s "title"
  let key ← toLowerCase toLower title
  let p ← getProp s "p"
  let text ← getProp p "#"
  pure (setProp key text result)

/-- The `forEach` over the sections, which assigns into `result` section by
section: the value of `result` when the loop ends, and the exception that
ended it early, if any. -/
def sectionsForEach (toLower : String → String) (result : List (String × JVal)) :
    List JVal → List (String × JVal) × Option JErr
  | [] => (result, none)
  | s :: rest =>
    match sectionStep toLower result s with
    | .error e => (result, some e)
    | .ok result' => sectionsForEach toLower result' rest

/-- The `try` block of the parse callback: the value of `result` when the
block ends, and the exception that ended it, if any. -/
def tryExtractAbstract (toLower : String → String) (result : List (String × JVal))
    (parsed : JVal) : List (String × JVal) × Option JErr :=
  match readPath parsed ["article", "front", "article-meta", "abstract"] with
  | .error e => (result, some e)
  | .ok abstract =>
    if !truthy abstract then (errorOf "article does not contain an abstract", none)
    else
      match getProp abstract "sec" with
      | .error e => (result, some e)
      | .ok sec =>
        match sec with
        | .arr sections => sectionsForEach toLower result sections
        | _ =>
          match getProp abstract "p" with
          | .error e => (result, some e)
          | .ok p =>
            if truthy p then
              match getProp p "#" with
              | .error e => (result, some e)
              | .ok text => (setProp "abstract" text result, none)
            else
              (errorOf ("unexpected abstract format '" ++ jsToString abstract ++ "'"), none)

/-- The callback given to `xmlSimple.parse`: the value of `result` after it.
An exception of the `try` block is caught and recorded by
`result.error = "unexpected document format"`. -/
def onParsed (toLower : String → String) (result : List (String × JVal))
    (outcome : ParseOutcome) : List (String × JVal) :=
  if truthy outcome.err then errorOf "unable to parse publication details"
  else
    match tryExtractAbstract toLower result outcome.parsed with
    | (result', none) => result'
    | (result', some _) => setProp "error" (.str "unexpected document format") result'

/-- Embedding of `pubMedApi.fetchResultDetail`. The function does not read
`process.env.EUTILS_API_KEY`; its value is a parameter all the same, as for
`search`. The case mapping `toLower` of the runtime is a parameter. -/
def fetchResultDetail (_envApiKey : Option String) (httpRequest : String → Response)
    (parse : JVal → ParseOutcome) (toLower : String → String) (pmcId : JVal) : FetchRun :=
  let uri := efetchUrl (jsToString pmcId)
  let answer := httpRequest uri
  let result : List (String × JVal) := []
  if truthy answer.err then { requests := [uri], delivered := [] }
  else
    { requests := [uri], delivered := [.obj (onParsed toLower result (parse answer.body))] }

/-- A transport that answers every request with the same XML text. -/
def xmlTransport (_url : String) : Response :=
  { err := .null, body := .str "<article/>" }

/-- A parsed article whose abstract has two sections, the second one without
a paragraph. -/
def articleSecondSectionBare : JVal :=
  .obj [("article", .obj [("front", .obj [("article-meta", .obj [("abstract",
    .obj [("sec", .arr [
      .obj [("title", .str "Background"), ("p", .obj [("#", .str "text1")])],
      .obj [("title", .str "Results")]])])])])])]

/-- A parsed article whose abstract has two complete sections. -/
def articleTwoSections : JVal :=
  .obj [("article", .obj [("front", .obj [("article-meta", .obj [("abstract",
    .obj [("sec", .arr [
      .obj [("title", .str "Background"), ("p", .obj [("#", .str "text1")])],
      .obj [("title", .str "Results"), ("p", .obj [("#", .str "text2")])]])])])])])]

/-- A parsed article without an abstract. -/
def articleNoAbstract : JVal :=
  .obj [("article", .obj [("front", .obj [("article-meta", .obj [])])])]

/-- A transport for a run with the api key `KEY`: it answers the E-Search url
of the term `flu` with `searchDocFull`, the E-Link url of that session with
`linkDocWithHistory`, and every other url with the summary `docAB`. -/
def keyedTransport (url : String) : Response :=
  if url = searchUrl "&api_key=KEY" "flu" then { err := .null, body := searchDocFull }
  else if url = linkUrl "&api_key=KEY" "1" "NCID_1_2" then
    { err := .null, body := linkDocWithHistory }
  else { err := .null, body := docAB }

/-- A summary document whose uid `A` has an `articleids` list that holds
`null`. -/
def docNullId : JVal :=
  .obj [("result", .obj [("uids", .arr [.str "A"]),
    ("A", .obj [("uid", .str "A"), ("articleids", .arr [.null])])])]

/-- The `result` part of a summary that lists the uid `__proto__`, with an
entry of that name (an own property, as `JSON.parse` creates it) that has a
`pmid` id. -/
def resultProtoUid : JVal :=
  .obj [("uids", .arr [.str "__proto__"]),
    ("__proto__", .obj [("uid", .str "__proto__"),
      ("articleids", .arr [.obj [("idtype", .str "pmid"), ("value", .str "111")]])])]

/-- A summary document that lists the uid `__proto__`. -/
def docProtoUid : JVal := .obj [("result", resultProtoUid)]

/-- Two segments, the first one labelled `__proto__`. -/
def segmentsProtoLabel : List JVal :=
  [.obj [("@", .obj [("Label", .str "__proto__")]), ("#", .str "text0")],
   .obj [("@", .obj [("Label", .str "Results")]), ("#", .str "text2")]]

/-- Demographic details whose entry for `A` has a field named `__proto__`. -/
def demoProtoField : JVal :=
  .obj [("A", .obj [("__proto__", .str "x"), ("sentences", .arr [.str "22 were women."])])]

/-- The `result` part of a summary whose item listed as `B` carries the uid
`X` and has a `pmid` id. -/
def resultForeignUid : JVal :=
  .obj [("uids", .arr [.str "B"]),
    ("B", .obj [("uid", .str "X"),
      ("articleids", .arr [.obj [("idtype", .str "pmid"), ("value", .str "222")]])])]

/-- A summary document whose item does not carry the uid it is listed under. -/
def docForeignUid : JVal := .obj [("result", resultForeignUid)]

/-- The `result` part of a summary that lists the uid `constructor`, with an
item that has no id. -/
def resultConstructorUid : JVal :=
  .obj [("uids", .arr [.str "constructor"]),
    ("constructor", .obj [("uid", .str "constructor"), ("articleids", .arr [])])]

/-- A summary document that lists the uid `constructor`. -/
def docConstructorUid : JVal := .obj [("result", resultConstructorUid)]

/-! # Theorems -/

/-! ## Lemmas on property lists -/

theorem lookupProp_setOwn (k k' : String) (v : JVal) (ps : List (String × JVal)) :
    lookupProp k (setOwn k' v ps) = if k' = k then some v else lookupProp k ps := by
  induction ps with
  | nil => simp [setOwn, lookupProp]
  | cons p rest ih =>
    obtain ⟨k'', v''⟩ := p
    by_cases h1 : k'' = k'
    · subst h1
      by_cases h2 : k'' = k <;> simp [setOwn, lookupProp, h2]
    · by_cases h2 : k'' = k
      · subst h2
        have h3 : ¬ k' = k'' := fun h => h1 h.symm
        simp [setOwn, lookupProp, h1, h3]
      · simp [setOwn, lookupProp, h1, h2, ih]

/-- An assignment is read back under its key, for every key but `__proto__`. -/
theorem lookupProp_setProp (k k' : String) (v : JVal) (ps : List (String × JVal))
    (hk : k ≠ "__proto__") :
    lookupProp k (setProp k' v ps) = if k' = k then some v else lookupProp k ps := by
  unfold setProp
  by_cases h : k' = "__proto__"
  · have hne : ¬ "__proto__" = k := fun e => hk e.symm
    simp [h, hne]
  · simp [h, lookupProp_setOwn]

/-- No assignment creates or changes an own property `__proto__`. -/
theorem lookupProp_setProp_proto (k' : String) (v : JVal) (ps : List (String × JVal)) :
    lookupProp "__proto__" (setProp k' v ps) = lookupProp "__proto__" ps := by
  unfold setProp
  by_cases h : k' = "__proto__"
  · simp [h]
  · simp [h, lookupProp_setOwn]

theorem inherited_of_not_name (kind k : String) (h : isInheritedName k = false) :
    inherited kind k = .undefined := by
  simp only [isInheritedName, Bool.or_eq_false_iff, beq_eq_false_iff_ne, ne_eq] at h
  obtain ⟨⟨h1, h2⟩, h3⟩ := h
  simp [inherited, h1, h2, h3]
  simpa using h3

theorem ownEntries_inherited (kind k : String) : ownEntries (inherited kind k) = [] := by
  unfold inherited
  split
  · rfl
  · split
    · rfl
    · split <;> rfl

theorem getProp_obj_some (ps : List (String × JVal)) (k : String) (w : JVal)
    (h : lookupProp k ps = some w) : getProp (.obj ps) k = .ok w := by
  simp [getProp, h]

theorem getProp_obj_none (ps : List (String × JVal)) (k : String)
    (h : lookupProp k ps = none) : getProp (.obj ps) k = .ok (inherited "Object" k) := by
  simp [getProp, h]

/-- A key that names no inherited property is read from the own properties. -/
theorem getProp_obj (ps : List (String × JVal)) (k : String) (h : isInheritedName k = false) :
    getProp (.obj ps) k = .ok ((lookupProp k ps).getD .undefined) := by
  cases hl : lookupProp k ps with
  | some w => simp [getProp, hl]
  | none => simp [getProp, hl, inherited_of_not_name "Object" k h]

/-- A value other than `undefined` and `null` can be read from. -/
theorem getProp_ok_of_not_nullish (v : JVal) (k : String) (h : isNullish v = false) :
    ∃ w, getProp v k = .ok w := by
  cases v with
  | undefined => simp [isNullish] at h
  | null => simp [isNullish] at h
  | bool b => exact ⟨_, rfl⟩
  | num n => exact ⟨_, rfl⟩
  | builtin n => exact ⟨_, rfl⟩
  | obj ps =>
    cases hl : lookupProp k ps with
    | some w => exact ⟨w, getProp_obj_some ps k w hl⟩
    | none => exact ⟨_, getProp_obj_none ps k hl⟩
  | str s =>
    cases hi : arrayIndex? k with
    | some i =>
      simp only [getProp, hi]
      split <;> exact ⟨_, rfl⟩
    | none =>
      simp only [getProp, hi]
      split <;> exact ⟨_, rfl⟩
  | arr xs =>
    cases hi : arrayIndex? k with
    | some i => exact ⟨xs.getD i .undefined, by simp only [getProp, hi]⟩
    | none =>
      simp only [getProp, hi]
      split <;> exact ⟨_, rfl⟩

theorem getProp_nullish (v : JVal) (k : String) (h : isNullish v = true) :
    getProp v k = .error .typeError := by
  cases v <;> simp [isNullish] at h <;> rfl

theorem getProp_idtype_obj (idType : String) (e : JVal) (h : hasIdType idType e = true) :
    ∃ ps, e = .obj ps := by
  have h0 : arrayIndex? "idtype" = none := by decide
  have hI : ∀ kind, inherited kind "idtype" = .undefined := fun _ => rfl
  cases e with
  | obj ps => exact ⟨ps, rfl⟩
  | undefined => simp [hasIdType, getProp] at h
  | null => simp [hasIdType, getProp] at h
  | bool b => simp [hasIdType, getProp, hI, strictEqStr] at h
  | num n => simp [hasIdType, getProp, hI, strictEqStr] at h
  | builtin n => simp [hasIdType, getProp, strictEqStr] at h
  | str s => simp [hasIdType, getProp, h0, hI, strictEqStr] at h
  | arr xs => simp [hasIdType, getProp, h0, hI, strictEqStr] at h

theorem hasIdType_iff (idType : String) (e : JVal) :
    hasIdType idType e = true ↔ getProp e "idtype" = .ok (.str idType) := by
  unfold hasIdType
  cases h : getProp e "idtype" with
  | error err => simp
  | ok t => cases t <;> simp [strictEqStr]

theorem idTypeIs_ok (idType : String) (x : JVal) (hx : isNullish x = false) :
    idTypeIs idType x = .ok (hasIdType idType x) := by
  obtain ⟨t, ht⟩ := getProp_ok_of_not_nullish x "idtype" hx
  simp [idTypeIs, hasIdType, ht, bind, Except.bind, pure, Except.pure]

theorem arrayFind_idtype (idType : String) (ids : List JVal)
    (h : ∀ e ∈ ids, isNullish e = false) :
    arrayFind (idTypeIs idType) ids
      = .ok ((ids.find? (hasIdType idType)).getD .undefined) := by
  induction ids with
  | nil => simp [arrayFind]
  | cons x xs ih =>
    have hx : isNullish x = false := h x (List.mem_cons_self _ _)
    have hxs : ∀ e ∈ xs, isNullish e = false := fun e he => h e (List.mem_cons_of_mem _ he)
    cases hb : hasIdType idType x with
    | true => simp [arrayFind, idTypeIs_ok idType x hx, hb, List.find?]
    | false => simp [arrayFind, idTypeIs_ok idType x hx, hb, List.find?, ih hxs]

theorem linkedIdOf_eq (result : JVal) (idType u : String) (entry : JVal) (ids : List JVal)
    (h1 : getProp result u = .ok entry) (h2 : getProp entry "articleids" = .ok (.arr ids)) :
    linkedIdOf result idType u = ids.find? (hasIdType idType) := by
  simp [linkedIdOf, h1, h2]

theorem linkedIdStep_ok (result : JVal) (idType : String) (xform : JVal → JVal)
    (acc : List (String × JVal)) (u : String) (entry : JVal) (ids : List JVal)
    (h1 : getProp result u = .ok entry) (h2 : getProp entry "articleids" = .ok (.arr ids))
    (h3 : ∀ e ∈ ids, isNullish e = false) :
    linkedIdStep result idType xform acc (.str u) =
      .ok (match linkedIdOf result idType u with
           | some e => setProp u (xform (valueOf e)) acc
           | none => acc) := by
  rw [linkedIdOf_eq result idType u entry ids h1 h2]
  cases hf : ids.find? (hasIdType idType) with
  | none =>
    simp [linkedIdStep, jsToString, h1, h2, asArray, arrayFind_idtype idType ids h3, hf, truthy,
      bind, Except.bind, pure, Except.pure]
  | some e =>
    obtain ⟨ps, rfl⟩ := getProp_idtype_obj idType e (List.find?_some hf)
    have hv := getProp_obj ps "value" rfl
    simp [linkedIdStep, jsToString, h1, h2, asArray, arrayFind_idtype idType ids h3, hf, truthy,
      bind, Except.bind, pure, Except.pure, hv, valueOf]

/-- What the fold of `getLinkedIdsByType` leaves in the accumulator. -/
theorem reduceM_linkedIds (result : JVal) (idType : String) (xform : JVal → JVal)
    (uids : List String) (acc : List (String × JVal)) (hwf : UidsHaveArticleIds result uids) :
    ∃ m, reduceM (linkedIdStep result idType xform) acc (uids.map .str) = .ok m ∧
      (∀ k, k ≠ "__proto__" → lookupProp k m =
        if k ∈ uids then
          (match linkedIdOf result idType k with
           | some e => some (xform (valueOf e))
           | none => lookupProp k acc)
        else lookupProp k acc) ∧
      lookupProp "__proto__" m = lookupProp "__proto__" acc := by
  induction uids generalizing acc with
  | nil => exact ⟨acc, rfl, fun k _ => by simp, rfl⟩
  | cons u us ih =>
    obtain ⟨entry, ids, h1, h2, h3⟩ := hwf u (List.mem_cons_self _ _)
    have hwf' : UidsHaveArticleIds result us := fun w hw => hwf w (List.mem_cons_of_mem _ hw)
    have hstep := linkedIdStep_ok result idType xform acc u entry ids h1 h2 h3
    cases hl : linkedIdOf result idType u with
    | none =>
      rw [hl] at hstep
      obtain ⟨m, hm, hk, hp⟩ := ih acc hwf'
      refine ⟨m, by simp [reduceM, hstep, hm], fun k hne => ?_, hp⟩
      rw [hk k hne]
      by_cases hku : k = u
      · subst hku
        simp [hl]
      · simp [hku]
    | some e =>
      rw [hl] at hstep
      obtain ⟨m, hm, hk, hp⟩ := ih (setProp u (xform (valueOf e)) acc) hwf'
      refine ⟨m, by simp [reduceM, hstep, hm], fun k hne => ?_, ?_⟩
      · rw [hk k hne, lookupProp_setProp k u _ _ hne]
        by_cases hku : k = u
        · subst hku
          simp [hl]
        · have hku' : ¬ u = k := fun h => hku h.symm
          simp [hku, hku']
      · rw [hp, lookupProp_setProp_proto]

/-- The own properties of the map that `getLinkedIdsByType` returns. -/
theorem getLinkedIdsByType_lookup (doc result : JVal) (uids : List String) (idType : String)
    (xform : JVal → JVal)
    (hres : getProp doc "result" = .ok result)
    (huids : getProp result "uids" = .ok (.arr (uids.map .str)))
    (hwf : UidsHaveArticleIds result uids) :
    ∃ m, getLinkedIdsByType doc idType xform = .ok (.obj m) ∧
      (∀ k, k ≠ "__proto__" → lookupProp k m =
        if k ∈ uids then (linkedIdOf result idType k).map (fun e => xform (valueOf e))
        else none) ∧
      lookupProp "__proto__" m = none := by
  obtain ⟨m, hm, hk, hp⟩ := reduceM_linkedIds result idType xform uids [] hwf
  refine ⟨m, by simp [getLinkedIdsByType, hres, huids, asArray, hm, bind, Except.bind, pure,
    Except.pure], fun k hne => ?_, by rw [hp]; rfl⟩
  rw [hk k hne]
  by_cases hmem : k ∈ uids
  · cases hl : linkedIdOf result idType k <;> simp [hmem, lookupProp]
  · simp [hmem, lookupProp]

theorem linkedIdOf_isSome_iff (result : JVal) (idType k : String) :
    (∃ e, linkedIdOf result idType k = some e) ↔ HasLinkedId result idType k := by
  constructor
  · rintro ⟨e, he⟩
    unfold linkedIdOf at he
    cases h1 : getProp result k with
    | error err => simp [h1] at he
    | ok entry =>
      cases h2 : getProp entry "articleids" with
      | error err => simp [h1, h2] at he
      | ok a =>
        cases a with
        | arr ids =>
          simp only [h1, h2] at he
          exact ⟨entry, ids, e, h1, h2, List.mem_of_find?_eq_some he,
            (hasIdType_iff idType e).1 (List.find?_some he)⟩
        | _ => simp [h1, h2] at he
  · rintro ⟨entry, ids, e, h1, h2, hmem, hty⟩
    rw [linkedIdOf_eq result idType k entry ids h1 h2]
    cases hf : ids.find? (hasIdType idType) with
    | some e' => exact ⟨e', rfl⟩
    | none =>
      have := List.find?_eq_none.1 hf e hmem
      exact absurd ((hasIdType_iff idType e).2 hty) this

theorem resultAB_wellFormed : UidsHaveArticleIds resultAB ["A", "B"] := by
  intro u hu
  simp only [List.mem_cons, List.mem_singleton, List.not_mem_nil, or_false] at hu
  rcases hu with rfl | rfl
  · refine ⟨_, _, rfl, rfl, ?_⟩
    intro e he
    simp only [List.mem_cons, List.mem_singleton, List.not_mem_nil, or_false] at he
    rcases he with rfl | rfl <;> rfl
  · refine ⟨_, _, rfl, rfl, ?_⟩
    intro e he
    simp only [List.mem_cons, List.mem_singleton, List.not_mem_nil, or_false] at he
    rcases he with rfl
    rfl

/-! ## Failure of the fold -/

theorem getProp_error (v : JVal) (k : String) (e : JErr) (h : getProp v k = .error e) :
    e = .typeError := by
  cases hn : isNullish v with
  | true =>
    rw [getProp_nullish v k hn] at h
    cases h
    rfl
  | false =>
    obtain ⟨w, hw⟩ := getProp_ok_of_not_nullish v k hn
    rw [hw] at h
    cases h

theorem asArray_error (v : JVal) (e : JErr) (h : asArray v = .error e) : e = .typeError := by
  cases v with
  | arr xs => simp [asArray] at h
  | builtin name =>
    simp only [asArray] at h
    split at h
    · cases h
    · cases h
      rfl
  | undefined => cases h; rfl
  | null => cases h; rfl
  | bool b => cases h; rfl
  | num n => cases h; rfl
  | str s => cases h; rfl
  | obj ps => cases h; rfl

theorem arrayFind_idTypeIs_error (idType : String) (ids : List JVal) (e : JErr)
    (h : arrayFind (idTypeIs idType) ids = .error e) : e = .typeError := by
  induction ids with
  | nil => simp [arrayFind] at h
  | cons x xs ih =>
    unfold arrayFind at h
    cases hp : idTypeIs idType x with
    | error err =>
      simp only [hp] at h
      cases hg : getProp x "idtype" with
      | error err' =>
        simp [idTypeIs, hg, bind, Except.bind] at hp
        have := getProp_error x "idtype" err' hg
        simp at h
        rw [← h, ← hp, this]
      | ok t => simp [idTypeIs, hg, bind, Except.bind, pure, Except.pure] at hp
    | ok b =>
      cases b with
      | true => simp [hp] at h
      | false =>
        simp only [hp] at h
        exact ih h

theorem linkedIdStep_error (result : JVal) (idType : String) (xform : JVal → JVal)
    (acc : List (String × JVal)) (uid : JVal) (e : JErr)
    (h : linkedIdStep result idType xform acc uid = .error e) : e = .typeError := by
  unfold linkedIdStep at h
  cases h1 : getProp result (jsToString uid) with
  | error err =>
    simp [h1, bind, Except.bind] at h
    rw [← h]; exact getProp_error _ _ _ h1
  | ok entry =>
    cases h2 : getProp entry "articleids" with
    | error err =>
      simp [h1, h2, bind, Except.bind] at h
      rw [← h]; exact getProp_error _ _ _ h2
    | ok a =>
      cases h3 : asArray a with
      | error err =>
        simp [h1, h2, h3, bind, Except.bind] at h
        rw [← h]; exact asArray_error _ _ h3
      | ok ids =>
        cases h4 : arrayFind (idTypeIs idType) ids with
        | error err =>
          simp [h1, h2, h3, h4, bind, Except.bind] at h
          rw [← h]; exact arrayFind_idTypeIs_error _ _ _ h4
        | ok l =>
          by_cases ht : truthy l = true
          · cases h5 : getProp l "value" with
            | error err =>
              simp [h1, h2, h3, h4, ht, h5, bind, Except.bind] at h
              rw [← h]; exact getProp_error _ _ _ h5
            | ok v => simp [h1, h2, h3, h4, ht, h5, bind, Except.bind, pure, Except.pure] at h
          · simp [h1, h2, h3, h4, ht, bind, Except.bind, pure, Except.pure] at h

theorem linkedIdStep_lacks (result : JVal) (idType : String) (xform : JVal → JVal)
    (acc : List (String × JVal)) (u : String) (h : LacksArticleIds result u) :
    linkedIdStep result idType xform acc (.str u) = .error .typeError := by
  rcases h with h | ⟨entry, h1, h2⟩
  · have hu : getProp .undefined "articleids" = .error .typeError := rfl
    simp [linkedIdStep, jsToString, h, hu, bind, Except.bind]
  · simp [linkedIdStep, jsToString, h1, h2, asArray, bind, Except.bind]

theorem reduceM_linkedIds_error (result : JVal) (idType : String) (xform : JVal → JVal)
    (uids : List String) (acc : List (String × JVal))
    (h : ∃ u ∈ uids, LacksArticleIds result u) :
    reduceM (linkedIdStep result idType xform) acc (uids.map .str) = .error .typeError := by
  induction uids generalizing acc with
  | nil => simp at h
  | cons u us ih =>
    cases hs : linkedIdStep result idType xform acc (.str u) with
    | error e =>
      have := linkedIdStep_error _ _ _ _ _ _ hs
      simp [reduceM, hs, this]
    | ok acc' =>
      obtain ⟨w, hw, hl⟩ := h
      rcases List.mem_cons.1 hw with rfl | hw'
      · rw [linkedIdStep_lacks result idType xform acc w hl] at hs
        simp at hs
      · simp only [List.map_cons, reduceM, hs]
        exact ih acc' ⟨w, hw', hl⟩

/-! ## The abstract's segments -/

theorem lastWithLabel_cons (toLower : String → String) (k l : String) (t : JVal)
    (rest : List (String × JVal)) :
    lastWithLabel toLower k ((l, t) :: rest) =
      match lastWithLabel toLower k rest with
      | some t' => some t'
      | none => if toLower l = k then some t else none := by
  unfold lastWithLabel
  rw [List.reverse_cons, List.find?_append]
  cases hf : List.find? (fun lt => toLower lt.1 == k) rest.reverse with
  | some x => simp
  | none =>
    by_cases hk : toLower l = k
    · simp [List.find?, hk]
    · have hb : (toLower l == k) = false := by simpa using hk
      simp [List.find?, hk, hb]

theorem abstractSegmentStep_ok (toLower : String → String) (result : List (String × JVal))
    (seg : JVal) (l : String) (t : JVal) (h : IsSegment seg l t) :
    abstractSegmentStep toLower result seg = .ok (setProp (toLower l) t result) := by
  obtain ⟨attrs, h1, h2, h3⟩ := h
  simp [abstractSegmentStep, h1, h2, h3, toLowerCase, bind, Except.bind, pure, Except.pure]

/-- What the `forEach` over the segments leaves in `result`. -/
theorem reduceM_segments (toLower : String → String) (segs : List JVal)
    (labelled : List (String × JVal)) (acc : List (String × JVal))
    (h : List.Forall₂ (fun seg lt => IsSegment seg lt.1 lt.2) segs labelled) :
    ∃ m, reduceM (abstractSegmentStep toLower) acc segs = .ok m ∧
      (∀ k, k ≠ "__proto__" → lookupProp k m =
        match lastWithLabel toLower k labelled with
        | some t => some t
        | none => lookupProp k acc) ∧
      lookupProp "__proto__" m = lookupProp "__proto__" acc := by
  induction h generalizing acc with
  | nil => exact ⟨acc, rfl, fun k _ => by simp [lastWithLabel], rfl⟩
  | @cons seg lt segs labelled hseg _ ih =>
    obtain ⟨l, t⟩ := lt
    obtain ⟨m, hm, hk, hp⟩ := ih (setProp (toLower l) t acc)
    refine ⟨m, by simp [reduceM, abstractSegmentStep_ok toLower acc seg l t hseg, hm],
      fun k hne => ?_, by rw [hp, lookupProp_setProp_proto]⟩
    rw [hk k hne, lastWithLabel_cons, lookupProp_setProp k _ _ _ hne]
    cases lastWithLabel toLower k labelled with
    | some t' => rfl
    | none => by_cases hlk : toLower l = k <;> simp [hlk]

theorem lastWithLabel_isSome_iff (toLower : String → String) (k : String)
    (labelled : List (String × JVal)) :
    (∃ t, lastWithLabel toLower k labelled = some t) ↔ ∃ lt ∈ labelled, toLower lt.1 = k := by
  induction labelled with
  | nil => simp [lastWithLabel]
  | cons lt rest ih =>
    obtain ⟨l, t⟩ := lt
    rw [lastWithLabel_cons]
    constructor
    · rintro ⟨t', ht'⟩
      cases hl : lastWithLabel toLower k rest with
      | some t'' =>
        obtain ⟨lt, hmem, hlt⟩ := ih.1 ⟨t'', hl⟩
        exact ⟨lt, List.mem_cons_of_mem _ hmem, hlt⟩
      | none =>
        by_cases hlk : toLower l = k
        · exact ⟨(l, t), List.mem_cons_self _ _, hlk⟩
        · simp [hl, hlk] at ht'
    · rintro ⟨lt, hmem, hlt⟩
      cases hl : lastWithLabel toLower k rest with
      | some t'' => exact ⟨t'', rfl⟩
      | none =>
        rcases List.mem_cons.1 hmem with rfl | hmem'
        · exact ⟨t, by simp [hlt]⟩
        · obtain ⟨t'', ht''⟩ := ih.2 ⟨lt, hmem', hlt⟩
          rw [hl] at ht''
          simp at ht''

theorem segmentsBackgroundResults_labelled :
    List.Forall₂ (fun seg lt => IsSegment seg lt.1 lt.2) segmentsBackgroundResults
      [("Background", .str "text1"), ("Results", .str "text2")] :=
  List.Forall₂.cons ⟨_, rfl, rfl, rfl⟩ (List.Forall₂.cons ⟨_, rfl, rfl, rfl⟩ List.Forall₂.nil)

/-! ## Blank search terms -/

theorem jsTrim_eq_empty (s : String) (h : ∀ c ∈ s.data, isJsWhitespace c = true) :
    jsTrim s = "" := by
  have h1 : s.data.dropWhile isJsWhitespace = [] := List.dropWhile_eq_nil_iff.2 h
  simp [jsTrim, h1]

theorem jsTrim_ne_empty (s : String) (h : ∃ c ∈ s.data, isJsWhitespace c = false) :
    (jsTrim s).length ≠ 0 := by
  obtain ⟨c, hc, hw⟩ := h
  have hmem : c ∈ s.data.dropWhile isJsWhitespace := by
    have hsplit := List.takeWhile_append_dropWhile isJsWhitespace s.data
    rw [← hsplit] at hc
    rcases List.mem_append.1 hc with h1 | h1
    · have := List.mem_takeWhile_imp h1
      rw [hw] at this
      exact absurd this (by simp)
    · exact h1
  have hne : ((s.data.dropWhile isJsWhitespace).reverse.dropWhile isJsWhitespace) ≠ [] := by
    intro hnil
    have := List.dropWhile_eq_nil_iff.1 hnil c (List.mem_reverse.2 hmem)
    rw [hw] at this
    exact absurd this (by simp)
  intro hlen
  apply hne
  have : (jsTrim s).data = [] := List.length_eq_zero.1 hlen
  simpa [jsTrim] using this

theorem isEmptySearch_nonblank (s : String) (h : ∃ c ∈ s.data, isJsWhitespace c = false) :
    isEmptySearch (.str s) = .ok false := by
  have := jsTrim_ne_empty s h
  simp [isEmptySearch, trim, bind, Except.bind, pure, Except.pure, this]

/-! ## The callbacks of `search` -/

theorem readProp_ok (v : JVal) (k : String) (h : isNullish v = false) :
    getProp v k = .ok (readProp v k) := by
  obtain ⟨w, hw⟩ := getProp_ok_of_not_nullish v k h
  simp [readProp, hw]

theorem not_nullish_of_getProp_ok (v w : JVal) (k : String) (h : getProp v k = .ok w) :
    isNullish v = false := by
  cases v with
  | undefined => simp [getProp] at h
  | null => simp [getProp] at h
  | _ => rfl

theorem onSearchBody_ok (apiKey : String) (term : String) (body qk we count retmax : JVal)
    (h1 : IsSearchBody body qk we) (h2 : HasSearchCounts body count retmax) :
    onSearchBody apiKey (.str term) emptyResults body
      = .ok ([("searchTerm", .str term), ("itemsFound", count), ("itemsReturned", retmax),
          ("items", .arr [])], linkUrl apiKey (jsToString qk) (jsToString we)) := by
  obtain ⟨esr, he1, _, he3, he4⟩ := h1
  obtain ⟨esr', hc1, hc2, hc3⟩ := h2
  rw [he1] at hc1
  cases hc1
  have hset : setProp "itemsReturned" retmax (setProp "itemsFound" count
      (setProp "searchTerm" (.str term) emptyResults))
      = [("searchTerm", .str term), ("itemsFound", count), ("itemsReturned", retmax),
          ("items", .arr [])] := rfl
  simp [onSearchBody, he1, he3, he4, hc2, hc3, hset, bind, Except.bind, pure, Except.pure]

theorem onLinkBody_ok (apiKey : String) (body qk we : JVal)
    (h : IsLinkBodyWithHistory body qk we) :
    onLinkBody apiKey body = .ok (summaryUrl apiKey (jsToString qk) (jsToString we)) := by
  obtain ⟨linksets, lnkSet, histories, first, hl1, hl2, hl3, hl4, hl5, hl6⟩ := h
  simp [onLinkBody, hl1, hl2, hl3, hl4, hl5, hl6, bind, Except.bind, pure, Except.pure]

theorem reduceM_push (f : List JVal → JVal → Except JErr (List JVal)) (g : String → JVal)
    (hf : ∀ items u, f items (.str u) = .ok (items ++ [g u])) (us : List String)
    (acc : List JVal) :
    reduceM f acc (us.map .str) = .ok (acc ++ us.map g) := by
  induction us generalizing acc with
  | nil => simp [reduceM]
  | cons u rest ih =>
    simp only [List.map_cons, reduceM, hf]
    rw [ih]
    simp

theorem onSummaryBody_ok (results : List (String × JVal)) (body result : JVal)
    (uids : List String) (h : IsSummaryBody body result uids) :
    onSummaryBody results body
      = .ok (setProp "items" (.arr (uids.map (readProp result))) results) := by
  obtain ⟨h1, h2⟩ := h
  have hn := not_nullish_of_getProp_ok result _ _ h2
  simp only [onSummaryBody, h1, h2, asArray, bind, Except.bind, pure, Except.pure]
  rw [reduceM_push _ (readProp result)]
  · simp
  · intro items u
    simp [jsToString, readProp_ok result u hn]

theorem resultTwoPmids_wellFormed : UidsHaveArticleIds resultTwoPmids ["A"] := by
  intro u hu
  simp only [List.mem_singleton] at hu
  subst hu
  refine ⟨_, _, rfl, rfl, ?_⟩
  intro e he
  simp only [List.mem_cons, List.mem_singleton, List.not_mem_nil, or_false] at he
  rcases he with rfl | rfl | rfl <;> rfl

/-! ## Merged records -/

theorem assignFrom_lookup (k : String) (ps : List (String × JVal)) (seen : List String)
    (target : List (String × JVal)) (hk : k ≠ "__proto__") :
    lookupProp k (assignFrom seen target ps) =
      if k ∈ seen then lookupProp k target
      else match lookupProp k ps with
        | some v => some v
        | none => lookupProp k target := by
  induction ps generalizing seen target with
  | nil => simp [assignFrom, lookupProp]
  | cons p rest ih =>
    obtain ⟨k', v'⟩ := p
    by_cases hs : k' ∈ seen
    · simp only [assignFrom, hs, if_true, ih]
      by_cases hks : k ∈ seen
      · simp [hks]
      · have hne : ¬ k' = k := fun h => hks (h ▸ hs)
        simp [hks, lookupProp, hne]
    · simp only [assignFrom, hs, if_false, ih, lookupProp_setProp k _ _ _ hk]
      by_cases hkk : k' = k
      · subst hkk
        simp [lookupProp, hs]
      · have hkk' : ¬ k = k' := fun h => hkk h.symm
        by_cases hks : k ∈ seen
        · simp [hks, hkk, hkk']
        · simp [hks, hkk, hkk', lookupProp]

theorem assignFrom_lookup_proto (ps : List (String × JVal)) (seen : List String)
    (target : List (String × JVal)) :
    lookupProp "__proto__" (assignFrom seen target ps) = lookupProp "__proto__" target := by
  induction ps generalizing seen target with
  | nil => rfl
  | cons p rest ih =>
    obtain ⟨k', v'⟩ := p
    by_cases hs : k' ∈ seen
    · simp only [assignFrom, hs, if_true, ih]
    · simp only [assignFrom, hs, if_false, ih, lookupProp_setProp_proto]

/-- `Object.assign` from an object: a field of the source other than
`__proto__` is read back from the target, the other properties are kept. -/
theorem objectAssign_lookup (k : String) (target sps : List (String × JVal))
    (hk : k ≠ "__proto__") :
    lookupProp k (objectAssign target (.obj sps)) =
      match lookupProp k sps with
      | some v => some v
      | none => lookupProp k target := by
  simp [objectAssign, ownEntries, assignFrom_lookup _ _ _ _ hk]

theorem objectAssign_lookup_proto (target : List (String × JVal)) (source : JVal) :
    lookupProp "__proto__" (objectAssign target source) = lookupProp "__proto__" target := by
  simp [objectAssign, assignFrom_lookup_proto]

theorem readProp_eq (v w : JVal) (k : String) (h : getProp v k = .ok w) : readProp v k = w := by
  simp [readProp, h]

theorem mergeRecord_ok (linkedIds : List (String × JVal)) (demoDetails doc result : JVal)
    (u : String) (hres : getProp doc "result" = .ok result)
    (hitem : isNullish (readProp result u) = false)
    (hdemo : isNullish demoDetails = false) :
    mergeRecord (.obj linkedIds) demoDetails doc (.str u)
      = .ok (mergedRecord linkedIds demoDetails result u) := by
  have hr : isNullish result = false := by
    cases hn : isNullish result with
    | false => rfl
    | true =>
      have : readProp result u = .undefined := by
        simp [readProp, getProp_nullish result u hn]
      rw [this] at hitem
      simp [isNullish] at hitem
  simp only [mergeRecord, hres, jsToString, readProp_ok result u hr,
    readProp_ok (readProp result u) _ hitem, readProp_ok demoDetails u hdemo,
    readProp_ok (.obj linkedIds) _ rfl, bind, Except.bind, pure, Except.pure]
  rfl

theorem arrayMapM_map (f : JVal → Except JErr JVal) (g : String → JVal) (us : List String)
    (h : ∀ u ∈ us, f (.str u) = .ok (g u)) :
    arrayMapM f (us.map .str) = .ok (us.map g) := by
  induction us with
  | nil => rfl
  | cons u rest ih =>
    have h1 := h u (List.mem_cons_self _ _)
    have h2 := ih (fun w hw => h w (List.mem_cons_of_mem _ hw))
    simp [arrayMapM, h1, h2]

/-- The merge returns one record per listed uid, in the order of the list. -/
theorem merge_records (demoDetails doc result : JVal) (uids : List String)
    (hres : getProp doc "result" = .ok result)
    (huids : getProp result "uids" = .ok (.arr (uids.map .str)))
    (hwf : UidsHaveArticleIds result uids)
    (hdemo : isNullish demoDetails = false) :
    ∃ linkedIds, getLinkedIdsByType doc "pmid" (fun x => x) = .ok (.obj linkedIds) ∧
      (∀ k, k ≠ "__proto__" → lookupProp k linkedIds =
        if k ∈ uids then (linkedIdOf result "pmid" k).map valueOf else none) ∧
      mergeDemographicAndSummaryResults demoDetails doc
        = .ok (.arr (uids.map (mergedRecord linkedIds demoDetails result))) := by
  obtain ⟨linkedIds, hl, hk, _⟩ :=
    getLinkedIdsByType_lookup doc result uids "pmid" (fun x => x) hres huids hwf
  refine ⟨linkedIds, hl, hk, ?_⟩
  have hmap : arrayMapM (mergeRecord (.obj linkedIds) demoDetails doc) (uids.map .str)
      = .ok (uids.map (mergedRecord linkedIds demoDetails result)) := by
    apply arrayMapM_map
    intro u hu
    obtain ⟨entry, ids, h1, h2, _⟩ := hwf u hu
    apply mergeRecord_ok linkedIds demoDetails doc result u hres _ hdemo
    rw [readProp_eq result entry u h1]
    exact not_nullish_of_getProp_ok entry _ _ h2
  simp [mergeDemographicAndSummaryResults, hl, hres, huids, asArray, hmap, bind, Except.bind,
    pure, Except.pure]

theorem resultABTitled_wellFormed : UidsHaveArticleIds resultABTitled ["A", "B"] := by
  intro u hu
  simp only [List.mem_cons, List.mem_singleton, List.not_mem_nil, or_false] at hu
  rcases hu with rfl | rfl
  · refine ⟨_, _, rfl, rfl, ?_⟩
    intro e he
    simp only [List.mem_singleton] at he
    subst he
    rfl
  · refine ⟨_, _, rfl, rfl, ?_⟩
    intro e he
    simp only [List.mem_singleton] at he
    subst he
    rfl

theorem primaryFields_uid (linkedIds : List (String × JVal)) (item : JVal) :
    lookupProp "uid" (primaryFields linkedIds item)
      = some (readProp (.obj linkedIds) (jsToString (readProp item "uid"))) := rfl

theorem primaryFields_pmid (linkedIds : List (String × JVal)) (item : JVal) :
    lookupProp "pmid" (primaryFields linkedIds item)
      = some (readProp (.obj linkedIds) (jsToString (readProp item "uid"))) := rfl

theorem primaryFields_pmcid (linkedIds : List (String × JVal)) (item : JVal) :
    lookupProp "pmcid" (primaryFields linkedIds item) = some (readProp item "uid") := rfl

theorem mergedRecord_empty_side (linkedIds : List (String × JVal)) (result : JVal)
    (u : String) :
    mergedRecord linkedIds (.obj []) result u
      = .obj (primaryFields linkedIds (readProp result u)) := by
  have h : readProp (.obj []) u = inherited "Object" u := rfl
  have ho := ownEntries_inherited "Object" u
  simp only [mergedRecord, sideSource, h, objectAssign]
  split
  · rw [ho]
    rfl
  · rfl

theorem resultABTitled_selfNamed : ItemsNameThemselves resultABTitled ["A", "B"] := by
  intro u hu
  simp only [List.mem_cons, List.mem_singleton, List.not_mem_nil, or_false] at hu
  rcases hu with rfl | rfl
  · exact ⟨_, rfl, rfl⟩
  · exact ⟨_, rfl, rfl⟩

/-! ## The text of the urls -/

theorem searchUrl_text (apiKey term : String) :
    searchUrl apiKey term =
      "https://eutils.ncbi.nlm.nih.gov/entrez/eutils/esearch.fcgi?db=pubmed&term=(Therapy/Broad[filter]) AND ("
        ++ term ++ ")&retmode=json&usehistory=y" ++ apiKey := by
  apply String.ext
  simp only [searchUrl, eUtilsBaseUrl, String.data_append, List.append_assoc]
  rfl

theorem linkUrl_text (apiKey qk we : String) :
    linkUrl apiKey qk we =
      "https://eutils.ncbi.nlm.nih.gov/entrez/eutils/elink.fcgi?db=pmc&dbfrom=pubmed&linkname=pubmed_pmc&query_key="
        ++ qk ++ "&WebEnv=" ++ we ++ "&cmd=neighbor_history&retmode=json" ++ apiKey := by
  apply String.ext
  simp only [linkUrl, eUtilsBaseUrl, String.data_append, List.append_assoc]
  rfl

theorem summaryUrl_text (apiKey qk we : String) :
    summaryUrl apiKey qk we =
      "https://eutils.ncbi.nlm.nih.gov/entrez/eutils/esummary.fcgi?db=pubmed&query_key="
        ++ qk ++ "&WebEnv=" ++ we ++ "&retmode=json&retmax=100" ++ apiKey := by
  apply String.ext
  simp only [summaryUrl, eUtilsBaseUrl, String.data_append, List.append_assoc]
  rfl

/-! ## Claims -/

/-- C1 (counterexample): a summary document whose uid `A` has an entry with an
`articleids` list, the list holding `null`, makes `getLinkedIdsByType` throw
a `TypeError` instead of returning a map; and for the listed uid `__proto__`,
whose entry has a `pmid` id, the returned map is empty: the assignment
`acc["__proto__"] = ...` creates no key. -/
theorem getLinkedIdsByType_null_id_or_proto_uid :
    getLinkedIdsByType docNullId "pmid" id = .error .typeError ∧
    HasLinkedId resultProtoUid "pmid" "__proto__" ∧
    getLinkedIdsByType docProtoUid "pmid" id = .ok (.obj []) :=
  ⟨rfl, ⟨_, _, _, rfl, rfl, List.mem_singleton.2 rfl, rfl⟩, rfl⟩

/-- C1 (amended): for a summary document in which every uid listed in
`result.uids` has an entry `result[uid]` with an `articleids` list none of
whose elements is `undefined` or `null`, and for every `idType` and `xform`,
`getLinkedIdsByType` returns a map that, for every key `k` other than
`__proto__`, has the own key `k` exactly when `k` is listed in `result.uids` and
`result[k].articleids` contains an entry whose `idtype` equals `idType`; every
other such key is absent from the map (it is not present with a null
value). -/
theorem getLinkedIdsByType_keys (doc result : JVal) (uids : List String) (idType : String)
    (xform : JVal → JVal)
    (hres : getProp doc "result" = .ok result)
    (huids : getProp result "uids" = .ok (.arr (uids.map .str)))
    (hwf : UidsHaveArticleIds result uids) :
    ∃ m, getLinkedIdsByType doc idType xform = .ok (.obj m) ∧
      (∀ k, k ≠ "__proto__" →
        (hasKey m k ↔ (k ∈ uids ∧ HasLinkedId result idType k))) ∧
      (∀ k, k ≠ "__proto__" → ¬ (k ∈ uids ∧ HasLinkedId result idType k) →
        lookupProp k m = none) := by
  obtain ⟨m, hm, hk, _⟩ :=
    getLinkedIdsByType_lookup doc result uids idType xform hres huids hwf
  have key : ∀ k, k ≠ "__proto__" →
      (hasKey m k ↔ (k ∈ uids ∧ HasLinkedId result idType k)) := by
    intro k hne
    unfold hasKey
    rw [hk k hne, ← linkedIdOf_isSome_iff]
    by_cases hmem : k ∈ uids
    · cases hl : linkedIdOf result idType k <;> simp [hmem]
    · simp [hmem]
  refine ⟨m, hm, key, fun k hne hnot => ?_⟩
  cases hlk : lookupProp k m with
  | none => rfl
  | some v => exact absurd ((key k hne).1 ⟨v, hlk⟩) hnot

/-- Witness of C1 (amended) on the example of the specification: uids `A` and
`B`, `A` with the `pmid` id `111`, `B` without one, give exactly the map
`A ↦ 111`. -/
theorem getLinkedIdsByType_keys_witness :
    getLinkedIdsByType docAB "pmid" id = .ok (.obj [("A", .str "111")]) ∧
    UidsHaveArticleIds resultAB ["A", "B"] ∧
    ∃ m, getLinkedIdsByType docAB "pmid" id = .ok (.obj m) ∧
      (∀ k, k ≠ "__proto__" →
        (hasKey m k ↔ (k ∈ ["A", "B"] ∧ HasLinkedId resultAB "pmid" k))) ∧
      (∀ k, k ≠ "__proto__" → ¬ (k ∈ ["A", "B"] ∧ HasLinkedId resultAB "pmid" k) →
        lookupProp k m = none) :=
  ⟨rfl, resultAB_wellFormed,
    getLinkedIdsByType_keys docAB resultAB ["A", "B"] "pmid" id rfl rfl resultAB_wellFormed⟩

/-- C2 (counterexample): a summary document that lists the uid `A` without an
entry for it makes `getLinkedIdsByType` throw a `TypeError`; no map is
returned. -/
theorem getLinkedIdsByType_throws_on_missing_entry :
    getLinkedIdsByType docNoEntry "pmid" id = .error .typeError ∧
    ¬ ∃ v, getLinkedIdsByType docNoEntry "pmid" id = .ok v := by
  have h : getLinkedIdsByType docNoEntry "pmid" id = .error .typeError := rfl
  exact ⟨h, fun ⟨v, hv⟩ => by rw [h] at hv; simp at hv⟩

/-- C2 (amended): `getLinkedIdsByType` returns a map, without throwing, for
every summary document in which each listed uid has an entry with an
`articleids` list none of whose elements is `undefined` or `null`; when a
listed uid has no entry in `result`, or its entry has no `articleids` list,
it throws a `TypeError` (the method may raise on a document that is not in
the expected format). -/
theorem getLinkedIdsByType_total_on_expected_format (doc result : JVal) (uids : List String)
    (idType : String) (xform : JVal → JVal)
    (hres : getProp doc "result" = .ok result)
    (huids : getProp result "uids" = .ok (.arr (uids.map .str))) :
    (UidsHaveArticleIds result uids →
      ∃ m, getLinkedIdsByType doc idType xform = .ok (.obj m)) ∧
    ((∃ u ∈ uids, LacksArticleIds result u) →
      getLinkedIdsByType doc idType xform = .error .typeError) := by
  constructor
  · intro hwf
    obtain ⟨m, hm, _⟩ := getLinkedIdsByType_lookup doc result uids idType xform hres huids hwf
    exact ⟨m, hm⟩
  · intro hl
    simp [getLinkedIdsByType, hres, huids, asArray,
      reduceM_linkedIds_error result idType xform uids [] hl, bind, Except.bind]

/-- Witness of C2 (amended) on the example summary document. -/
theorem getLinkedIdsByType_total_on_expected_format_witness :
    getProp docAB "result" = .ok resultAB ∧
    getProp resultAB "uids" = .ok (.arr (["A", "B"].map .str)) ∧
    UidsHaveArticleIds resultAB ["A", "B"] ∧
    ∃ m, getLinkedIdsByType docAB "pmid" id = .ok (.obj m) :=
  ⟨rfl, rfl, resultAB_wellFormed,
    (getLinkedIdsByType_total_on_expected_format docAB resultAB ["A", "B"] "pmid" id rfl rfl).1
      resultAB_wellFormed⟩

/-- C3: for a link document whose first link set has no `linksetdbhistories`
section, `extractEnvironmentFromLinkResults` returns the previous query key
unchanged as `querykey`, and the first link set's `webenv` as `webenv`. -/
theorem extractEnvironment_without_history (linkDocument linksets lnkSet previousQueryKey : JVal)
    (h1 : getProp linkDocument "linksets" = .ok linksets)
    (h2 : getIndex linksets 0 = .ok lnkSet)
    (h3 : isNullish lnkSet = false)
    (h4 : getProp lnkSet "linksetdbhistories" = .ok .undefined) :
    ∃ w, getProp lnkSet "webenv" = .ok w ∧
      extractEnvironmentFromLinkResults linkDocument previousQueryKey
        = .ok (.obj [("webenv", w), ("querykey", previousQueryKey)]) := by
  obtain ⟨w, hw⟩ := getProp_ok_of_not_nullish lnkSet "webenv" h3
  refine ⟨w, hw, ?_⟩
  simp [extractEnvironmentFromLinkResults, catchAsInvalidDocument, h1, h2, h4, hw, truthy,
    bind, Except.bind, pure, Except.pure]

/-- Witness of C3: a link document without history, previous query key `1`. -/
theorem extractEnvironment_without_history_witness :
    extractEnvironmentFromLinkResults linkDocNoHistory (.str "1")
      = .ok (.obj [("webenv", .str "NCID_1_2"), ("querykey", .str "1")]) ∧
    ∃ w, getProp (.obj [("dbfrom", .str "pubmed"), ("webenv", .str "NCID_1_2")]) "webenv" = .ok w ∧
      extractEnvironmentFromLinkResults linkDocNoHistory (.str "1")
        = .ok (.obj [("webenv", w), ("querykey", .str "1")]) :=
  ⟨rfl, extractEnvironment_without_history linkDocNoHistory
    (.arr [.obj [("dbfrom", .str "pubmed"), ("webenv", .str "NCID_1_2")]])
    (.obj [("dbfrom", .str "pubmed"), ("webenv", .str "NCID_1_2")]) (.str "1") rfl rfl rfl rfl⟩

/-- C4 (counterexample): a link document whose first link set lacks `webenv`
does not make `extractEnvironmentFromLinkResults` raise: it returns a result
whose `webenv` is `undefined`, without and with a link-history section. -/
theorem extractEnvironment_missing_webenv_returns :
    extractEnvironmentFromLinkResults linkDocNoWebenv (.str "1")
      = .ok (.obj [("webenv", .undefined), ("querykey", .str "1")]) ∧
    extractEnvironmentFromLinkResults linkDocHistoryNoWebenv (.str "1")
      = .ok (.obj [("webenv", .undefined), ("querykey", .str "2")]) :=
  ⟨rfl, rfl⟩

/-- C4 (amended): for a link document whose first link set lacks the base
`webenv` field, `extractEnvironmentFromLinkResults` does not raise on that
account. It returns a result whose `webenv` is `undefined`: with the previous
query key when there is no `linksetdbhistories` section, with the first
history entry's `querykey` when the section is a non-empty list. It raises
`InvalidDocumentFormatError` when a property read fails, as for an empty
`linksetdbhistories` list. -/
theorem extractEnvironment_missing_webenv (linkDocument linksets lnkSet previousQueryKey : JVal)
    (h1 : getProp linkDocument "linksets" = .ok linksets)
    (h2 : getIndex linksets 0 = .ok lnkSet)
    (h3 : getProp lnkSet "webenv" = .ok .undefined) :
    (getProp lnkSet "linksetdbhistories" = .ok .undefined →
      extractEnvironmentFromLinkResults linkDocument previousQueryKey
        = .ok (.obj [("webenv", .undefined), ("querykey", previousQueryKey)])) ∧
    (∀ first rest q, getProp lnkSet "linksetdbhistories" = .ok (.arr (first :: rest)) →
      getProp first "querykey" = .ok q →
      extractEnvironmentFromLinkResults linkDocument previousQueryKey
        = .ok (.obj [("webenv", .undefined), ("querykey", q)])) ∧
    (getProp lnkSet "linksetdbhistories" = .ok (.arr []) →
      extractEnvironmentFromLinkResults linkDocument previousQueryKey
        = .error (.invalidDocumentFormat .typeError)) := by
  refine ⟨fun h4 => ?_, fun first rest q h4 h5 => ?_, fun h4 => ?_⟩
  · simp [extractEnvironmentFromLinkResults, catchAsInvalidDocument, h1, h2, h3, h4, truthy,
      bind, Except.bind, pure, Except.pure]
  · have hi : getIndex (.arr (first :: rest)) 0 = .ok first := rfl
    simp [extractEnvironmentFromLinkResults, catchAsInvalidDocument, h1, h2, h3, h4, h5, truthy,
      hi, bind, Except.bind, pure, Except.pure]
  · have hu : getProp .undefined "querykey" = .error .typeError := rfl
    have hi : getIndex (.arr []) 0 = .ok .undefined := rfl
    simp [extractEnvironmentFromLinkResults, catchAsInvalidDocument, h1, h2, h3, h4, hu, hi,
      truthy, bind, Except.bind]

/-- Witness of C4 (amended): the link set without `webenv` and with a history
entry of query key `2`. -/
theorem extractEnvironment_missing_webenv_witness :
    getProp linkDocHistoryNoWebenv "linksets" = .ok (.arr [.obj [("dbfrom", .str "pubmed"),
      ("linksetdbhistories", .arr [.obj [("dbto", .str "pmc"), ("querykey", .str "2")]])]]) ∧
    extractEnvironmentFromLinkResults linkDocHistoryNoWebenv (.str "1")
      = .ok (.obj [("webenv", .undefined), ("querykey", .str "2")]) :=
  ⟨rfl, (extractEnvironment_missing_webenv linkDocHistoryNoWebenv
    (.arr [.obj [("dbfrom", .str "pubmed"),
      ("linksetdbhistories", .arr [.obj [("dbto", .str "pmc"), ("querykey", .str "2")]])]])
    (.obj [("dbfrom", .str "pubmed"),
      ("linksetdbhistories", .arr [.obj [("dbto", .str "pmc"), ("querykey", .str "2")]])])
    (.str "1") rfl rfl rfl).2.1
      (.obj [("dbto", .str "pmc"), ("querykey", .str "2")]) [] (.str "2") rfl rfl⟩

/-- C5 (counterexample): a search document whose `esearchresult` lacks
`webenv` does not make `extractSearchResults` raise; the missing field is
projected as `undefined`. -/
theorem extractSearchResults_missing_field_returns :
    extractSearchResults searchDocNoWebenv (.str "flu")
      = .ok (.obj [("webenv", .undefined), ("querykey", .str "1"), ("searchTerm", .str "flu"),
          ("itemsFound", .str "5"), ("itemsReturned", .str "5")]) :=
  rfl

/-- C5 (amended): `extractSearchResults` raises `InvalidDocumentFormatError`
when the `esearchresult` section itself is missing or null; when the section
is present it returns exactly `{webenv, querykey, searchTerm: query,
itemsFound: count, itemsReturned: retmax}` projected from it, where a field
the section lacks is read as `undefined`. -/
theorem extractSearchResults_projection (searchDocument query esr : JVal)
    (h1 : getProp searchDocument "esearchresult" = .ok esr) :
    (isNullish esr = true →
      extractSearchResults searchDocument query = .error (.invalidDocumentFormat .typeError)) ∧
    (isNullish esr = false →
      ∃ webenv querykey count retmax,
        getProp esr "webenv" = .ok webenv ∧ getProp esr "querykey" = .ok querykey ∧
        getProp esr "count" = .ok count ∧ getProp esr "retmax" = .ok retmax ∧
        extractSearchResults searchDocument query
          = .ok (.obj [("webenv", webenv), ("querykey", querykey), ("searchTerm", query),
              ("itemsFound", count), ("itemsReturned", retmax)])) := by
  constructor
  · intro hn
    simp [extractSearchResults, catchAsInvalidDocument, h1, getProp_nullish esr _ hn,
      bind, Except.bind]
  · intro hn
    obtain ⟨w, hw⟩ := getProp_ok_of_not_nullish esr "webenv" hn
    obtain ⟨q, hq⟩ := getProp_ok_of_not_nullish esr "querykey" hn
    obtain ⟨c, hc⟩ := getProp_ok_of_not_nullish esr "count" hn
    obtain ⟨r, hr⟩ := getProp_ok_of_not_nullish esr "retmax" hn
    refine ⟨w, q, c, r, hw, hq, hc, hr, ?_⟩
    simp [extractSearchResults, catchAsInvalidDocument, h1, hw, hq, hc, hr,
      bind, Except.bind, pure, Except.pure]

/-- Witness of C5 (amended): a complete search document is projected field by
field. -/
theorem extractSearchResults_projection_witness :
    extractSearchResults searchDocFull (.str "flu")
      = .ok (.obj [("webenv", .str "NCID_1_2"), ("querykey", .str "1"),
          ("searchTerm", .str "flu"), ("itemsFound", .str "5"), ("itemsReturned", .str "5")]) ∧
    ∃ webenv querykey count retmax,
      getProp (.obj [("count", .str "5"), ("retmax", .str "5"), ("querykey", .str "1"),
        ("webenv", .str "NCID_1_2")]) "webenv" = .ok webenv ∧
      getProp (.obj [("count", .str "5"), ("retmax", .str "5"), ("querykey", .str "1"),
        ("webenv", .str "NCID_1_2")]) "querykey" = .ok querykey ∧
      getProp (.obj [("count", .str "5"), ("retmax", .str "5"), ("querykey", .str "1"),
        ("webenv", .str "NCID_1_2")]) "count" = .ok count ∧
      getProp (.obj [("count", .str "5"), ("retmax", .str "5"), ("querykey", .str "1"),
        ("webenv", .str "NCID_1_2")]) "retmax" = .ok retmax ∧
      extractSearchResults searchDocFull (.str "flu")
        = .ok (.obj [("webenv", webenv), ("querykey", querykey), ("searchTerm", .str "flu"),
            ("itemsFound", count), ("itemsReturned", retmax)]) :=
  ⟨rfl, (extractSearchResults_projection searchDocFull (.str "flu")
    (.obj [("count", .str "5"), ("retmax", .str "5"), ("querykey", .str "1"),
      ("webenv", .str "NCID_1_2")]) rfl).2 rfl⟩

/-- C6 (counterexample): for the segments labelled `__proto__` and `Results`
the mapping has the key `results` only: the assignment
`result["__proto__"] = ...` creates no key, although `__proto__` is the
lower-cased label of the first segment. -/
theorem extractAbstract_proto_label :
    List.Forall₂ (fun seg lt => IsSegment seg lt.1 lt.2) segmentsProtoLabel
      [("__proto__", .str "text0"), ("Results", .str "text2")] ∧
    lowerCase "__proto__" = "__proto__" ∧
    extractAbstract lowerCase (fun _ => .ok (detailWithAbstractText (.arr segmentsProtoLabel)))
        "<PubmedArticle/>"
      = .ok (.obj [("results", .str "text2")]) :=
  ⟨List.Forall₂.cons ⟨_, rfl, rfl, rfl⟩ (List.Forall₂.cons ⟨_, rfl, rfl, rfl⟩ List.Forall₂.nil),
    by decide, rfl⟩

/-- C6 (amended): for a parsed detail document whose `AbstractText` node is an
array of segments, each with a `Label` attribute and a text payload,
`extractAbstract` resolves to a mapping whose own keys other than `__proto__` are
exactly the lower-cased labels other than `__proto__`, and whose value at
each such key is the text of the last segment whose lower-cased label is that
key. This holds for whatever case mapping `toLower` the runtime applies. -/
theorem extractAbstract_sections (toLower : String → String)
    (parse : String → Except JErr JVal) (detailDocument : String)
    (json : JVal) (segs : List JVal) (labelled : List (String × JVal))
    (hparse : parse detailDocument = .ok json)
    (hpath : readPath json
      ["PubmedArticle", "MedlineCitation", "Article", "Abstract", "AbstractText"]
        = .ok (.arr segs))
    (hsegs : List.Forall₂ (fun seg lt => IsSegment seg lt.1 lt.2) segs labelled) :
    ∃ m, extractAbstract toLower parse detailDocument = .ok (.obj m) ∧
      (∀ k, k ≠ "__proto__" → (hasKey m k ↔ ∃ lt ∈ labelled, toLower lt.1 = k)) ∧
      (∀ k, k ≠ "__proto__" → lookupProp k m = lastWithLabel toLower k labelled) := by
  obtain ⟨m, hm, hk, _⟩ := reduceM_segments toLower segs labelled [] hsegs
  have hval : ∀ k, k ≠ "__proto__" → lookupProp k m = lastWithLabel toLower k labelled := by
    intro k hne
    rw [hk k hne]
    cases lastWithLabel toLower k labelled <;> simp [lookupProp]
  refine ⟨m, ?_, fun k hne => ?_, hval⟩
  · simp [extractAbstract, convertXmlToJson, catchAsInvalidDocument, hparse, hpath, isArray,
      asArray, hm, bind, Except.bind, pure, Except.pure]
  · unfold hasKey
    rw [hval k hne]
    exact lastWithLabel_isSome_iff toLower k labelled

/-- Witness of C6 (amended) on the example of the specification: the labels
`Background` and `Results` give the keys `background` and `results`, with the
case mapping of the ASCII letters for `toLower`. -/
theorem extractAbstract_sections_witness :
    lowerCase "ABCDEFGHIJKLMNOPQRSTUVWXYZ abcxyz 0189" = "abcdefghijklmnopqrstuvwxyz abcxyz 0189" ∧
    extractAbstract lowerCase
        (fun _ => .ok (detailWithAbstractText (.arr segmentsBackgroundResults)))
        "<PubmedArticle/>"
      = .ok (.obj [("background", .str "text1"), ("results", .str "text2")]) ∧
    ∃ m, extractAbstract lowerCase
        (fun _ => .ok (detailWithAbstractText (.arr segmentsBackgroundResults)))
        "<PubmedArticle/>" = .ok (.obj m) ∧
      (∀ k, k ≠ "__proto__" → (hasKey m k ↔
        ∃ lt ∈ [("Background", JVal.str "text1"), ("Results", JVal.str "text2")],
          lowerCase lt.1 = k)) ∧
      (∀ k, k ≠ "__proto__" → lookupProp k m
        = lastWithLabel lowerCase k [("Background", .str "text1"), ("Results", .str "text2")]) :=
  ⟨by decide, rfl, extractAbstract_sections lowerCase (fun _ => .ok (detailWithAbstractText
      (.arr segmentsBackgroundResults))) "<PubmedArticle/>"
    (detailWithAbstractText (.arr segmentsBackgroundResults)) segmentsBackgroundResults
    [("Background", .str "text1"), ("Results", .str "text2")] rfl rfl
    segmentsBackgroundResults_labelled⟩

/-- C7 (failing input): with an `AbstractText` node that is `null`, or absent
from the `Abstract` node, `extractAbstract` does not fail: it resolves to
`{abstract: null}`, respectively `{abstract: undefined}`. -/
theorem extractAbstract_null_resolves :
    extractAbstract lowerCase (fun _ => .ok (detailWithAbstractText .null)) "<PubmedArticle/>"
      = .ok (.obj [("abstract", .null)]) ∧
    extractAbstract lowerCase (fun _ => .ok detailWithoutAbstractText) "<PubmedArticle/>"
      = .ok (.obj [("abstract", .undefined)]) :=
  ⟨rfl, rfl⟩

/-- C8: for a parsed detail document whose `AbstractText` node is a plain
string `t`, `extractAbstract` resolves to exactly the single-entry mapping
`{abstract: t}`. -/
theorem extractAbstract_plain_text (toLower : String → String)
    (parse : String → Except JErr JVal)
    (detailDocument : String) (json : JVal) (t : String)
    (hparse : parse detailDocument = .ok json)
    (hpath : readPath json
      ["PubmedArticle", "MedlineCitation", "Article", "Abstract", "AbstractText"]
        = .ok (.str t)) :
    extractAbstract toLower parse detailDocument = .ok (.obj [("abstract", .str t)]) := by
  simp [extractAbstract, convertXmlToJson, catchAsInvalidDocument, hparse, hpath, isArray,
    typeofIsObject, bind, Except.bind, pure, Except.pure]

/-- Witness of C8 on the example of the specification. -/
theorem extractAbstract_plain_text_witness :
    extractAbstract lowerCase (fun _ => .ok (detailWithAbstractText (.str "Some text.")))
        "<PubmedArticle/>"
      = .ok (.obj [("abstract", .str "Some text.")]) :=
  extractAbstract_plain_text lowerCase
    (fun _ => .ok (detailWithAbstractText (.str "Some text.")))
    "<PubmedArticle/>" (detailWithAbstractText (.str "Some text.")) "Some text." rfl rfl

/-- C9: for a search term that is `undefined`, empty or made of white space
only, `search` invokes the caller's callback once, with exactly
`{searchTerm: "", itemsFound: 0, itemsReturned: 0, items: []}`, and issues no
request to the transport. -/
theorem search_blank_term (envApiKey : Option String) (httpRequest : String → Response)
    (searchTerm : JVal)
    (h : searchTerm = .undefined ∨
      ∃ s, searchTerm = .str s ∧ ∀ c ∈ s.data, isJsWhitespace c = true) :
    search envApiKey httpRequest searchTerm =
      { requests := [],
        delivered := [.obj [("searchTerm", .str ""), ("itemsFound", .num 0),
          ("itemsReturned", .num 0), ("items", .arr [])]],
        thrown := none } := by
  rcases h with rfl | ⟨s, rfl, hs⟩
  · rfl
  · have ht := jsTrim_eq_empty s hs
    simp [search, isEmptySearch, trim, ht, emptyResults, bind, Except.bind, pure, Except.pure]

/-- Witness of C9: a term of two spaces and a tab. -/
theorem search_blank_term_witness :
    search none exampleTransport (.str "  \t") =
      { requests := [],
        delivered := [.obj [("searchTerm", .str ""), ("itemsFound", .num 0),
          ("itemsReturned", .num 0), ("items", .arr [])]],
        thrown := none } :=
  search_blank_term none exampleTransport (.str "  \t") (Or.inr ⟨"  \t", rfl, by decide⟩)

/-- C10: for a search term with a character that is not white space, and a
transport that answers the E-Search request and the E-Link request without
error and with well-formed bodies (query key and web environment are strings,
the link body has a link-history section), `search` issues exactly three
requests, in the order esearch, elink, esummary; the elink url carries the
query key and web environment of the esearch body, the esummary url the query
key of the elink body's first history entry and the elink body's web
environment. -/
theorem search_issues_three_requests (envApiKey : Option String)
    (httpRequest : String → Response) (term qk we qk' we' : String)
    (hterm : ∃ c ∈ term.data, isJsWhitespace c = false)
    (herr1 : truthy (httpRequest
      ("https://eutils.ncbi.nlm.nih.gov/entrez/eutils/esearch.fcgi?db=pubmed&term=(Therapy/Broad[filter]) AND ("
        ++ term ++ ")&retmode=json&usehistory=y" ++ apiKeyParam envApiKey)).err = false)
    (hbody1 : IsSearchBody (httpRequest
      ("https://eutils.ncbi.nlm.nih.gov/entrez/eutils/esearch.fcgi?db=pubmed&term=(Therapy/Broad[filter]) AND ("
        ++ term ++ ")&retmode=json&usehistory=y" ++ apiKeyParam envApiKey)).body
      (.str qk) (.str we))
    (herr2 : truthy (httpRequest
      ("https://eutils.ncbi.nlm.nih.gov/entrez/eutils/elink.fcgi?db=pmc&dbfrom=pubmed&linkname=pubmed_pmc&query_key="
        ++ qk ++ "&WebEnv=" ++ we ++ "&cmd=neighbor_history&retmode=json"
        ++ apiKeyParam envApiKey)).err = false)
    (hbody2 : IsLinkBodyWithHistory (httpRequest
      ("https://eutils.ncbi.nlm.nih.gov/entrez/eutils/elink.fcgi?db=pmc&dbfrom=pubmed&linkname=pubmed_pmc&query_key="
        ++ qk ++ "&WebEnv=" ++ we ++ "&cmd=neighbor_history&retmode=json"
        ++ apiKeyParam envApiKey)).body
      (.str qk') (.str we')) :
    (search envApiKey httpRequest (.str term)).requests =
      ["https://eutils.ncbi.nlm.nih.gov/entrez/eutils/esearch.fcgi?db=pubmed&term=(Therapy/Broad[filter]) AND ("
        ++ term ++ ")&retmode=json&usehistory=y" ++ apiKeyParam envApiKey,
       "https://eutils.ncbi.nlm.nih.gov/entrez/eutils/elink.fcgi?db=pmc&dbfrom=pubmed&linkname=pubmed_pmc&query_key="
        ++ qk ++ "&WebEnv=" ++ we ++ "&cmd=neighbor_history&retmode=json"
        ++ apiKeyParam envApiKey,
       "https://eutils.ncbi.nlm.nih.gov/entrez/eutils/esummary.fcgi?db=pubmed&query_key="
        ++ qk' ++ "&WebEnv=" ++ we' ++ "&retmode=json&retmax=100"
        ++ apiKeyParam envApiKey] := by
  rw [← searchUrl_text] at herr1 hbody1
  rw [← linkUrl_text] at herr2 hbody2
  rw [← searchUrl_text, ← linkUrl_text, ← summaryUrl_text]
  obtain ⟨esr, he1, he2, he3, he4⟩ := hbody1
  obtain ⟨count, hcount⟩ := getProp_ok_of_not_nullish esr "count" he2
  obtain ⟨retmax, hretmax⟩ := getProp_ok_of_not_nullish esr "retmax" he2
  have hs := onSearchBody_ok (apiKeyParam envApiKey) term _ (.str qk) (.str we) count retmax
    ⟨esr, he1, he2, he3, he4⟩ ⟨esr, he1, hcount, hretmax⟩
  have hl := onLinkBody_ok (apiKeyParam envApiKey) _ (.str qk') (.str we') hbody2
  have hj : ∀ s : String, jsToString (.str s) = s := fun _ => rfl
  rw [hj, hj] at hs hl
  simp only [search, isEmptySearch_nonblank term hterm, hj, herr1, hs, herr2, hl]
  simp only [Bool.false_eq_true, if_false]
  split
  · rfl
  · split <;> rfl

/-- Witness of C10: the term `flu` against the example transport, without an
api key and with the api key `KEY`. -/
theorem search_issues_three_requests_witness :
    (search none exampleTransport (.str "flu")).requests =
      ["https://eutils.ncbi.nlm.nih.gov/entrez/eutils/esearch.fcgi?db=pubmed&term=(Therapy/Broad[filter]) AND (flu)&retmode=json&usehistory=y",
       "https://eutils.ncbi.nlm.nih.gov/entrez/eutils/elink.fcgi?db=pmc&dbfrom=pubmed&linkname=pubmed_pmc&query_key=1&WebEnv=NCID_1_2&cmd=neighbor_history&retmode=json",
       "https://eutils.ncbi.nlm.nih.gov/entrez/eutils/esummary.fcgi?db=pubmed&query_key=2&WebEnv=NCID_3_4&retmode=json&retmax=100"] ∧
    (search (some "KEY") keyedTransport (.str "flu")).requests =
      ["https://eutils.ncbi.nlm.nih.gov/entrez/eutils/esearch.fcgi?db=pubmed&term=(Therapy/Broad[filter]) AND (flu)&retmode=json&usehistory=y&api_key=KEY",
       "https://eutils.ncbi.nlm.nih.gov/entrez/eutils/elink.fcgi?db=pmc&dbfrom=pubmed&linkname=pubmed_pmc&query_key=1&WebEnv=NCID_1_2&cmd=neighbor_history&retmode=json&api_key=KEY",
       "https://eutils.ncbi.nlm.nih.gov/entrez/eutils/esummary.fcgi?db=pubmed&query_key=2&WebEnv=NCID_3_4&retmode=json&retmax=100&api_key=KEY"] :=
  ⟨search_issues_three_requests none exampleTransport "flu" "1" "NCID_1_2" "2" "NCID_3_4"
    ⟨'f', by decide, by decide⟩ (by decide) ⟨_, rfl, rfl, rfl, rfl⟩ (by decide)
    ⟨_, _, _, _, rfl, rfl, rfl, rfl, rfl, rfl⟩,
   search_issues_three_requests (some "KEY") keyedTransport "flu" "1" "NCID_1_2" "2" "NCID_3_4"
    ⟨'f', by decide, by decide⟩ (by decide) ⟨_, rfl, rfl, rfl, rfl⟩ (by decide)
    ⟨_, _, _, _, rfl, rfl, rfl, rfl, rfl, rfl⟩⟩

/-- C11 (failing input): with an E-Link answer that has no link-history
section, `search` issues the E-Search and E-Link requests only; reading
`linksetdbhistories[0]` throws a `TypeError` in the E-Link callback, no
summary request is issued and the caller's callback is never invoked. -/
theorem search_without_history_throws :
    search none transportNoHistory (.str "flu") =
      { requests := [searchUrl "" "flu", linkUrl "" "1" "NCID_1_2"],
        delivered := [],
        thrown := some .typeError } :=
  rfl

/-- C12 (counterexample): when the transport answers the E-Search request with
an error, `search` delivers nothing: the caller's callback is not invoked,
neither with an error result nor otherwise. -/
theorem search_transport_error_delivers_nothing :
    search none transportDown (.str "flu") =
      { requests := [searchUrl "" "flu"], delivered := [], thrown := none } ∧
    (search none transportDown (.str "flu")).delivered.length ≠ 1 :=
  ⟨rfl, by decide⟩

/-- C12 (amended): for a search term that is not blank, if the transport
returns an error at any of the three steps (the earlier steps having been
answered without error and with well-formed bodies), `search` aborts the
chain: it issues no further request and delivers nothing to the caller,
neither an error result nor a partial item list; the caller's callback is not
invoked and no exception is thrown. -/
theorem search_aborts_on_transport_error (envApiKey : Option String)
    (httpRequest : String → Response) (term : String)
    (hterm : ∃ c ∈ term.data, isJsWhitespace c = false) :
    (truthy (httpRequest (searchUrl (apiKeyParam envApiKey) term)).err = true →
      search envApiKey httpRequest (.str term) =
        { requests := [searchUrl (apiKeyParam envApiKey) term], delivered := [],
          thrown := none }) ∧
    (∀ qk we count retmax,
      truthy (httpRequest (searchUrl (apiKeyParam envApiKey) term)).err = false →
      IsSearchBody (httpRequest (searchUrl (apiKeyParam envApiKey) term)).body qk we →
      HasSearchCounts (httpRequest (searchUrl (apiKeyParam envApiKey) term)).body count retmax →
      truthy (httpRequest
        (linkUrl (apiKeyParam envApiKey) (jsToString qk) (jsToString we))).err = true →
      search envApiKey httpRequest (.str term) =
        { requests := [searchUrl (apiKeyParam envApiKey) term,
            linkUrl (apiKeyParam envApiKey) (jsToString qk) (jsToString we)],
          delivered := [], thrown := none }) ∧
    (∀ qk we count retmax qk' we',
      truthy (httpRequest (searchUrl (apiKeyParam envApiKey) term)).err = false →
      IsSearchBody (httpRequest (searchUrl (apiKeyParam envApiKey) term)).body qk we →
      HasSearchCounts (httpRequest (searchUrl (apiKeyParam envApiKey) term)).body count retmax →
      truthy (httpRequest
        (linkUrl (apiKeyParam envApiKey) (jsToString qk) (jsToString we))).err = false →
      IsLinkBodyWithHistory (httpRequest
        (linkUrl (apiKeyParam envApiKey) (jsToString qk) (jsToString we))).body qk' we' →
      truthy (httpRequest
        (summaryUrl (apiKeyParam envApiKey) (jsToString qk') (jsToString we'))).err = true →
      search envApiKey httpRequest (.str term) =
        { requests := [searchUrl (apiKeyParam envApiKey) term,
            linkUrl (apiKeyParam envApiKey) (jsToString qk) (jsToString we),
            summaryUrl (apiKeyParam envApiKey) (jsToString qk') (jsToString we')],
          delivered := [], thrown := none }) := by
  have hj : jsToString (.str term) = term := rfl
  refine ⟨fun herr1 => ?_, fun qk we count retmax herr1 hb1 hc1 herr2 => ?_,
    fun qk we count retmax qk' we' herr1 hb1 hc1 herr2 hb2 herr3 => ?_⟩
  · simp only [search, isEmptySearch_nonblank term hterm, hj, herr1, if_true]
  · have hs := onSearchBody_ok (apiKeyParam envApiKey) term _ qk we count retmax hb1 hc1
    simp only [search, isEmptySearch_nonblank term hterm, hj, herr1, hs, herr2, if_true,
      Bool.false_eq_true, if_false]
  · have hs := onSearchBody_ok (apiKeyParam envApiKey) term _ qk we count retmax hb1 hc1
    have hl := onLinkBody_ok (apiKeyParam envApiKey) _ qk' we' hb2
    simp only [search, isEmptySearch_nonblank term hterm, hj, herr1, hs, herr2, hl, herr3,
      if_true, Bool.false_eq_true, if_false]

/-- Witness of C12 (amended): the term `flu` against a transport that is
down. -/
theorem search_aborts_on_transport_error_witness :
    truthy (transportDown (searchUrl (apiKeyParam none) "flu")).err = true ∧
    search none transportDown (.str "flu") =
      { requests := [searchUrl (apiKeyParam none) "flu"], delivered := [], thrown := none } :=
  ⟨rfl, (search_aborts_on_transport_error none transportDown "flu"
    ⟨'f', by decide, by decide⟩).1 rfl⟩

/-- C17: for a search term that is not blank and three answers without error
and with well-formed bodies, `search` invokes the caller's callback once,
with a results object whose `items` is the summary body's `result.uids` list
mapped through `result[uid]`, in the same order and of the same length, and
whose `searchTerm`, `itemsFound` and `itemsReturned` are the term, the search
body's `count` and its `retmax`. -/
theorem search_delivers_summary_items (envApiKey : Option String)
    (httpRequest : String → Response) (term : String)
    (qk we count retmax qk' we' result : JVal) (uids : List String)
    (hterm : ∃ c ∈ term.data, isJsWhitespace c = false)
    (herr1 : truthy (httpRequest (searchUrl (apiKeyParam envApiKey) term)).err = false)
    (hbody1 : IsSearchBody (httpRequest (searchUrl (apiKeyParam envApiKey) term)).body qk we)
    (hcounts : HasSearchCounts
      (httpRequest (searchUrl (apiKeyParam envApiKey) term)).body count retmax)
    (herr2 : truthy (httpRequest
      (linkUrl (apiKeyParam envApiKey) (jsToString qk) (jsToString we))).err = false)
    (hbody2 : IsLinkBodyWithHistory (httpRequest
      (linkUrl (apiKeyParam envApiKey) (jsToString qk) (jsToString we))).body qk' we')
    (herr3 : truthy (httpRequest
      (summaryUrl (apiKeyParam envApiKey) (jsToString qk') (jsToString we'))).err = false)
    (hbody3 : IsSummaryBody (httpRequest
      (summaryUrl (apiKeyParam envApiKey) (jsToString qk') (jsToString we'))).body result uids) :
    (search envApiKey httpRequest (.str term)).delivered =
      [.obj [("searchTerm", .str term), ("itemsFound", count), ("itemsReturned", retmax),
        ("items", .arr (uids.map (readProp result)))]] ∧
    (uids.map (readProp result)).length = uids.length ∧
    (search envApiKey httpRequest (.str term)).thrown = none := by
  have hj : jsToString (.str term) = term := rfl
  have hs := onSearchBody_ok (apiKeyParam envApiKey) term _ qk we count retmax hbody1 hcounts
  have hl := onLinkBody_ok (apiKeyParam envApiKey) _ qk' we' hbody2
  have hm := onSummaryBody_ok [("searchTerm", .str term), ("itemsFound", count),
    ("itemsReturned", retmax), ("items", .arr [])] _ result uids hbody3
  have hset : setProp "items" (.arr (uids.map (readProp result)))
      [("searchTerm", .str term), ("itemsFound", count), ("itemsReturned", retmax),
        ("items", .arr [])]
      = [("searchTerm", .str term), ("itemsFound", count), ("itemsReturned", retmax),
        ("items", .arr (uids.map (readProp result)))] := rfl
  rw [hset] at hm
  refine ⟨?_, by simp, ?_⟩
  · simp only [search, isEmptySearch_nonblank term hterm, hj, herr1, hs, herr2, hl, herr3, hm,
      Bool.false_eq_true, if_false]
  · simp only [search, isEmptySearch_nonblank term hterm, hj, herr1, hs, herr2, hl, herr3, hm,
      Bool.false_eq_true, if_false]

/-- Witness of C17: the term `flu` against the example transport delivers the
two summary items `A` and `B`, in that order. -/
theorem search_delivers_summary_items_witness :
    (search none exampleTransport (.str "flu")).delivered =
      [.obj [("searchTerm", .str "flu"), ("itemsFound", .str "5"), ("itemsReturned", .str "5"),
        ("items", .arr (["A", "B"].map (readProp resultAB)))]] ∧
    (["A", "B"].map (readProp resultAB)).length = ["A", "B"].length ∧
    (search none exampleTransport (.str "flu")).thrown = none :=
  search_delivers_summary_items none exampleTransport "flu" (.str "1") (.str "NCID_1_2")
    (.str "5") (.str "5") (.str "2") (.str "NCID_3_4") resultAB ["A", "B"]
    ⟨'f', by decide, by decide⟩ (by decide) ⟨_, rfl, rfl, rfl, rfl⟩ ⟨_, rfl, rfl, rfl⟩
    (by decide) ⟨_, _, _, _, rfl, rfl, rfl, rfl, rfl, rfl⟩ (by decide) ⟨rfl, rfl⟩

/-- C18: for a link document whose first link set has a non-empty
`linksetdbhistories` list, `extractEnvironmentFromLinkResults` returns the
`querykey` of the first history entry, whatever the previous query key, and
the link set's `webenv`; when `linksetdbhistories` is present but empty, or
`linksets` is missing or empty, it raises `InvalidDocumentFormatError`. -/
theorem extractEnvironment_with_history (linkDocument previousQueryKey : JVal) :
    (∀ linksets lnkSet first rest q w,
      getProp linkDocument "linksets" = .ok linksets → getIndex linksets 0 = .ok lnkSet →
      getProp lnkSet "linksetdbhistories" = .ok (.arr (first :: rest)) →
      getProp first "querykey" = .ok q → getProp lnkSet "webenv" = .ok w →
      extractEnvironmentFromLinkResults linkDocument previousQueryKey
        = .ok (.obj [("webenv", w), ("querykey", q)])) ∧
    (∀ linksets lnkSet,
      getProp linkDocument "linksets" = .ok linksets → getIndex linksets 0 = .ok lnkSet →
      getProp lnkSet "linksetdbhistories" = .ok (.arr []) →
      ∃ cause, extractEnvironmentFromLinkResults linkDocument previousQueryKey
        = .error (.invalidDocumentFormat cause)) ∧
    (getProp linkDocument "linksets" = .ok .undefined →
      ∃ cause, extractEnvironmentFromLinkResults linkDocument previousQueryKey
        = .error (.invalidDocumentFormat cause)) ∧
    (getProp linkDocument "linksets" = .ok (.arr []) →
      ∃ cause, extractEnvironmentFromLinkResults linkDocument previousQueryKey
        = .error (.invalidDocumentFormat cause)) := by
  have hu : ∀ k, getProp .undefined k = .error .typeError := fun _ => rfl
  have hiu : getIndex .undefined 0 = .error .typeError := rfl
  have hi0 : getIndex (.arr []) 0 = .ok .undefined := rfl
  refine ⟨fun linksets lnkSet first rest q w h1 h2 h3 h4 h5 => ?_,
    fun linksets lnkSet h1 h2 h3 => ⟨.typeError, ?_⟩, fun h1 => ⟨.typeError, ?_⟩,
    fun h1 => ⟨.typeError, ?_⟩⟩
  · have hi : getIndex (.arr (first :: rest)) 0 = .ok first := rfl
    simp [extractEnvironmentFromLinkResults, catchAsInvalidDocument, h1, h2, h3, h4, h5, hi,
      truthy, bind, Except.bind, pure, Except.pure]
  · obtain ⟨w, hw⟩ := getProp_ok_of_not_nullish lnkSet "webenv"
      (not_nullish_of_getProp_ok lnkSet _ _ h3)
    simp [extractEnvironmentFromLinkResults, catchAsInvalidDocument, h1, h2, h3, hw, hi0, hu,
      truthy, bind, Except.bind]
  · simp [extractEnvironmentFromLinkResults, catchAsInvalidDocument, h1, hiu, bind, Except.bind]
  · simp [extractEnvironmentFromLinkResults, catchAsInvalidDocument, h1, hi0, hu, bind,
      Except.bind]

/-- Witness of C18: with two history entries the first one's query key `2` is
returned, not the previous key `1`; an empty history list and an empty
`linksets` list raise `InvalidDocumentFormatError`. -/
theorem extractEnvironment_with_history_witness :
    extractEnvironmentFromLinkResults linkDocTwoHistories (.str "1")
      = .ok (.obj [("webenv", .str "NCID_3_4"), ("querykey", .str "2")]) ∧
    (∃ cause, extractEnvironmentFromLinkResults linkDocEmptyHistory (.str "1")
      = .error (.invalidDocumentFormat cause)) ∧
    (∃ cause, extractEnvironmentFromLinkResults linkDocEmptyLinksets (.str "1")
      = .error (.invalidDocumentFormat cause)) :=
  ⟨(extractEnvironment_with_history linkDocTwoHistories (.str "1")).1 _ _ _ _ _ _
      rfl rfl rfl rfl rfl,
    (extractEnvironment_with_history linkDocEmptyHistory (.str "1")).2.1 _ _ rfl rfl rfl,
    (extractEnvironment_with_history linkDocEmptyLinksets (.str "1")).2.2.2 rfl⟩

/-- C19: in the map returned by `getLinkedIdsByType`, the value under a uid is
`xform` applied to the `value` of the first entry of `result[uid].articleids`
whose `idtype` equals `idType`; the entries before it have another type and
the entries after it are ignored. -/
theorem getLinkedIdsByType_first_match (doc result : JVal) (uids : List String)
    (idType : String) (xform : JVal → JVal)
    (hres : getProp doc "result" = .ok result)
    (huids : getProp result "uids" = .ok (.arr (uids.map .str)))
    (hwf : UidsHaveArticleIds result uids) :
    ∃ m, getLinkedIdsByType doc idType xform = .ok (.obj m) ∧
      ∀ k v, lookupProp k m = some v →
        ∃ entry before e after value,
          getProp result k = .ok entry ∧
          getProp entry "articleids" = .ok (.arr (before ++ e :: after)) ∧
          (∀ x ∈ before, getProp x "idtype" ≠ .ok (.str idType)) ∧
          getProp e "idtype" = .ok (.str idType) ∧
          getProp e "value" = .ok value ∧ v = xform value := by
  obtain ⟨m, hm, hk, hp⟩ :=
    getLinkedIdsByType_lookup doc result uids idType xform hres huids hwf
  refine ⟨m, hm, fun k v hv => ?_⟩
  have hne : k ≠ "__proto__" := by
    intro e
    rw [e, hp] at hv
    cases hv
  rw [hk k hne] at hv
  by_cases hmem : k ∈ uids
  · simp only [hmem, if_true] at hv
    obtain ⟨entry, ids, h1, h2, _⟩ := hwf k hmem
    rw [linkedIdOf_eq result idType k entry ids h1 h2] at hv
    cases hf : ids.find? (hasIdType idType) with
    | none => simp [hf] at hv
    | some e =>
      simp only [hf, Option.map_some', Option.some.injEq] at hv
      obtain ⟨he, before, after, hsplit, hbefore⟩ := List.find?_eq_some.1 hf
      obtain ⟨ps, rfl⟩ := getProp_idtype_obj idType e he
      refine ⟨entry, before, .obj ps, after, valueOf (.obj ps), h1, by rw [h2, hsplit],
        fun x hx hxt => ?_, (hasIdType_iff idType _).1 he,
        by simp [valueOf, getProp_obj ps "value" rfl], hv.symm⟩
      have := hbefore x hx
      rw [(hasIdType_iff idType x).2 hxt] at this
      simp at this
  · simp [hmem] at hv

/-- Witness of C19: an entry with two `pmid` ids maps to the first of them. -/
theorem getLinkedIdsByType_first_match_witness :
    getLinkedIdsByType docTwoPmids "pmid" id = .ok (.obj [("A", .str "111")]) ∧
    ∃ m, getLinkedIdsByType docTwoPmids "pmid" id = .ok (.obj m) ∧
      ∀ k v, lookupProp k m = some v →
        ∃ entry before e after value,
          getProp resultTwoPmids k = .ok entry ∧
          getProp entry "articleids" = .ok (.arr (before ++ e :: after)) ∧
          (∀ x ∈ before, getProp x "idtype" ≠ .ok (.str "pmid")) ∧
          getProp e "idtype" = .ok (.str "pmid") ∧
          getProp e "value" = .ok value ∧ v = id value :=
  ⟨rfl, getLinkedIdsByType_first_match docTwoPmids resultTwoPmids ["A"] "pmid" id rfl rfl
    resultTwoPmids_wellFormed⟩

/-- C13: for a well-formed summary document and a side dataset `demoDetails`,
`mergeDemographicAndSummaryResults` returns a sequence of the length of
`result.uids` whose i-th record is the record of the i-th uid; the record of
a uid without an entry in `demoDetails` consists of exactly the primary
fields `uid`, `title`, `authors`, `pubdate`, `pmid`, `pmcid`. -/
theorem merge_preserves_order (demoDetails doc result : JVal) (uids : List String)
    (hres : getProp doc "result" = .ok result)
    (huids : getProp result "uids" = .ok (.arr (uids.map .str)))
    (hwf : UidsHaveArticleIds result uids)
    (hdemo : isNullish demoDetails = false) :
    ∃ linkedIds records,
      getLinkedIdsByType doc "pmid" (fun x => x) = .ok (.obj linkedIds) ∧
      mergeDemographicAndSummaryResults demoDetails doc = .ok (.arr records) ∧
      records.length = uids.length ∧
      ∀ (i : Nat) (u : String), uids[i]? = some u →
        records[i]? = some (mergedRecord linkedIds demoDetails result u) ∧
        (getProp demoDetails u = .ok .undefined →
          records[i]? = some (JVal.obj (primaryFields linkedIds (readProp result u))) ∧
          (primaryFields linkedIds (readProp result u)).map Prod.fst
            = ["uid", "title", "authors", "pubdate", "pmid", "pmcid"]) := by
  obtain ⟨linkedIds, hl, _, hm⟩ := merge_records demoDetails doc result uids hres huids hwf hdemo
  refine ⟨linkedIds, _, hl, hm, by simp, fun i u hi => ?_⟩
  have hrec : (uids.map (mergedRecord linkedIds demoDetails result))[i]?
      = some (mergedRecord linkedIds demoDetails result u) := by
    simp [List.getElem?_map, hi]
  refine ⟨hrec, fun hside => ⟨?_, rfl⟩⟩
  rw [hrec]
  simp [mergedRecord, sideSource, readProp_eq demoDetails _ u hside, truthy, objectAssign,
    ownEntries, assignFrom]

/-- Witness of C13: the example summary merged with details for `A` only;
the record of `B` has exactly the six primary fields. -/
theorem merge_preserves_order_witness :
    mergeDemographicAndSummaryResults demoA docABTitled = .ok (.arr [
      .obj [("uid", .str "111"), ("title", .str "Annotated title"), ("authors", .undefined),
        ("pubdate", .undefined), ("pmid", .str "111"), ("pmcid", .str "A"),
        ("sentences", .arr [.str "Of 40 patients, 22 were women."])],
      .obj [("uid", .undefined), ("title", .str "On colds"), ("authors", .undefined),
        ("pubdate", .undefined), ("pmid", .undefined), ("pmcid", .str "B")]]) ∧
    ∃ linkedIds records,
      getLinkedIdsByType docABTitled "pmid" (fun x => x) = .ok (.obj linkedIds) ∧
      mergeDemographicAndSummaryResults demoA docABTitled = .ok (.arr records) ∧
      records.length = ["A", "B"].length ∧
      ∀ (i : Nat) (u : String), ["A", "B"][i]? = some u →
        records[i]? = some (mergedRecord linkedIds demoA resultABTitled u) ∧
        (getProp demoA u = .ok .undefined →
          records[i]? = some (JVal.obj (primaryFields linkedIds (readProp resultABTitled u))) ∧
          (primaryFields linkedIds (readProp resultABTitled u)).map Prod.fst
            = ["uid", "title", "authors", "pubdate", "pmid", "pmcid"]) :=
  ⟨rfl, merge_preserves_order demoA docABTitled resultABTitled ["A", "B"] rfl rfl
    resultABTitled_wellFormed rfl⟩

/-- C14 (counterexample): the side entry of `A` has a field named `__proto__`
(an own property, as `JSON.parse` creates it); the merged record of `A` has
the other field of the entry but no field `__proto__`. -/
theorem merge_proto_field_not_copied :
    getProp demoProtoField "A"
      = .ok (.obj [("__proto__", .str "x"), ("sentences", .arr [.str "22 were women."])]) ∧
    mergeDemographicAndSummaryResults demoProtoField docABTitled = .ok (.arr [
      .obj [("uid", .str "111"), ("title", .str "On flu"), ("authors", .undefined),
        ("pubdate", .undefined), ("pmid", .str "111"), ("pmcid", .str "A"),
        ("sentences", .arr [.str "22 were women."])],
      .obj [("uid", .undefined), ("title", .str "On colds"), ("authors", .undefined),
        ("pubdate", .undefined), ("pmid", .undefined), ("pmcid", .str "B")]]) :=
  ⟨rfl, rfl⟩

/-- C14 (amended): in `mergeDemographicAndSummaryResults`, for a uid that has
a side-dataset entry `demoDetails[uid]`, every field of that entry other than
`__proto__` is in the merged record with the side dataset's value, also where
a primary field has the same name, and every primary field not named in the
side entry keeps its primary value. -/
theorem merge_side_fields_take_precedence (demoDetails doc result : JVal)
    (uids : List String) (i : Nat) (u : String) (side : List (String × JVal))
    (hres : getProp doc "result" = .ok result)
    (huids : getProp result "uids" = .ok (.arr (uids.map .str)))
    (hwf : UidsHaveArticleIds result uids)
    (hu : uids[i]? = some u)
    (hside : getProp demoDetails u = .ok (.obj side)) :
    ∃ linkedIds records r,
      getLinkedIdsByType doc "pmid" (fun x => x) = .ok (.obj linkedIds) ∧
      mergeDemographicAndSummaryResults demoDetails doc = .ok (.arr records) ∧
      records[i]? = some (.obj r) ∧
      (∀ k v, k ≠ "__proto__" → lookupProp k side = some v → lookupProp k r = some v) ∧
      (∀ k, lookupProp k side = none →
        lookupProp k r = lookupProp k (primaryFields linkedIds (readProp result u))) := by
  have hdemo := not_nullish_of_getProp_ok demoDetails _ _ hside
  obtain ⟨linkedIds, hl, _, hm⟩ := merge_records demoDetails doc result uids hres huids hwf hdemo
  have hsrc : sideSource demoDetails u = .obj side := by
    simp [sideSource, readProp_eq demoDetails _ u hside, truthy]
  refine ⟨linkedIds, _,
    objectAssign (primaryFields linkedIds (readProp result u)) (.obj side), hl, hm, ?_,
    fun k v hne hk => ?_, fun k hk => ?_⟩
  · simp only [List.getElem?_map, hu, Option.map_some', mergedRecord, hsrc]
  · rw [objectAssign_lookup _ _ _ hne, hk]
  · by_cases hne : k = "__proto__"
    · rw [hne, objectAssign_lookup_proto]
    · rw [objectAssign_lookup _ _ _ hne, hk]

/-- Witness of C14 (amended): the details of `A` carry a `title`, which
replaces the title of the summary item. -/
theorem merge_side_fields_take_precedence_witness :
    ∃ linkedIds records r,
      getLinkedIdsByType docABTitled "pmid" (fun x => x) = .ok (.obj linkedIds) ∧
      mergeDemographicAndSummaryResults demoA docABTitled = .ok (.arr records) ∧
      records[0]? = some (.obj r) ∧
      (∀ k v, k ≠ "__proto__" →
        lookupProp k [("sentences", .arr [.str "Of 40 patients, 22 were women."]),
          ("title", .str "Annotated title")] = some v → lookupProp k r = some v) ∧
      (∀ k, lookupProp k [("sentences", .arr [.str "Of 40 patients, 22 were women."]),
        ("title", .str "Annotated title")] = none →
        lookupProp k r = lookupProp k (primaryFields linkedIds (readProp resultABTitled "A"))) :=
  merge_side_fields_take_precedence demoA docABTitled resultABTitled ["A", "B"] 0 "A"
    [("sentences", .arr [.str "Of 40 patients, 22 were women."]),
      ("title", .str "Annotated title")] rfl rfl resultABTitled_wellFormed rfl rfl

/-- C20 (counterexample): with an empty side dataset, a summary item whose
`uid` field differs from the uid under which it is listed gets `uid` and
`pmid` `undefined` although it has a linked `pmid`; and for the listed uid
`constructor`, whose item has no linked `pmid`, `uid` and `pmid` are the
built-in `Object` that the map of linked ids inherits, not `undefined`. -/
theorem merge_uid_not_linked_pmid :
    HasLinkedId resultForeignUid "pmid" "B" ∧
    mergeDemographicAndSummaryResults (.obj []) docForeignUid = .ok (.arr [
      .obj [("uid", .undefined), ("title", .undefined), ("authors", .undefined),
        ("pubdate", .undefined), ("pmid", .undefined), ("pmcid", .str "X")]]) ∧
    ¬ HasLinkedId resultConstructorUid "pmid" "constructor" ∧
    mergeDemographicAndSummaryResults (.obj []) docConstructorUid = .ok (.arr [
      .obj [("uid", .builtin "Object"), ("title", .undefined), ("authors", .undefined),
        ("pubdate", .undefined), ("pmid", .builtin "Object"),
        ("pmcid", .str "constructor")]]) := by
  refine ⟨⟨_, _, _, rfl, rfl, List.mem_singleton.2 rfl, rfl⟩, rfl, ?_, rfl⟩
  rintro ⟨entry, ids, e, h1, h2, hmem, _⟩
  have h1' : getProp resultConstructorUid "constructor"
      = .ok (.obj [("uid", .str "constructor"), ("articleids", .arr [])]) := rfl
  rw [h1'] at h1
  cases h1
  have h2' : getProp (.obj [("uid", .str "constructor"), ("articleids", .arr [])]) "articleids"
      = .ok (.arr []) := rfl
  rw [h2'] at h2
  cases h2
  simp at hmem

/-- C20 (amended): with an empty side dataset, for a summary whose items carry
their own uid (`result[u].uid` is `u`) and whose uids name no property of
`Object.prototype`, every record returned by
`mergeDemographicAndSummaryResults` has equal `uid` and `pmid` fields, both
holding the item's linked `pmid` identifier (the value of the first `pmid`
entry of its `articleids`), while `pmcid` holds the item's original uid; for
an item without a linked `pmid` the record is still emitted, with `uid` and
`pmid` both `undefined`. -/
theorem merge_uid_becomes_pmid (doc result : JVal) (uids : List String)
    (hres : getProp doc "result" = .ok result)
    (huids : getProp result "uids" = .ok (.arr (uids.map .str)))
    (hwf : UidsHaveArticleIds result uids)
    (hself : ItemsNameThemselves result uids)
    (hnames : ∀ u ∈ uids, isInheritedName u = false) :
    ∃ records, mergeDemographicAndSummaryResults (.obj []) doc = .ok (.arr records) ∧
      records.length = uids.length ∧
      ∀ (i : Nat) (u : String), uids[i]? = some u →
        ∃ r, records[i]? = some (JVal.obj r) ∧
          lookupProp "uid" r = lookupProp "pmid" r ∧
          lookupProp "pmid" r = some (match linkedIdOf result "pmid" u with
            | some e => valueOf e
            | none => JVal.undefined) ∧
          lookupProp "pmcid" r = some (JVal.str u) ∧
          (¬ HasLinkedId result "pmid" u →
            lookupProp "uid" r = some JVal.undefined ∧
            lookupProp "pmid" r = some JVal.undefined) := by
  obtain ⟨linkedIds, _, hk, hm⟩ := merge_records (.obj []) doc result uids hres huids hwf rfl
  refine ⟨_, hm, by simp, fun i u hi => ?_⟩
  have hmem : u ∈ uids := List.getElem?_mem hi
  have hname := hnames u hmem
  have hne : u ≠ "__proto__" := by
    intro e
    rw [e] at hname
    exact absurd hname (by decide)
  obtain ⟨item, hitem, huid⟩ := hself u hmem
  have hread : readProp (.obj linkedIds) (jsToString (readProp (readProp result u) "uid"))
      = (match linkedIdOf result "pmid" u with
          | some e => valueOf e
          | none => JVal.undefined) := by
    rw [readProp_eq result item u hitem, readProp_eq item _ "uid" huid]
    simp only [jsToString, readProp, getProp_obj linkedIds u hname, hk u hne, hmem, if_true]
    cases linkedIdOf result "pmid" u <;> rfl
  have hpmid : lookupProp "pmid" (primaryFields linkedIds (readProp result u))
      = some (match linkedIdOf result "pmid" u with
          | some e => valueOf e
          | none => JVal.undefined) := by
    rw [primaryFields_pmid, hread]
  refine ⟨primaryFields linkedIds (readProp result u), ?_, ?_, hpmid, ?_, fun hno => ?_⟩
  · simp only [List.getElem?_map, hi, Option.map_some', mergedRecord_empty_side]
  · rw [primaryFields_uid, primaryFields_pmid]
  · rw [primaryFields_pmcid, readProp_eq result item u hitem, readProp_eq item _ "uid" huid]
  · have hnone : linkedIdOf result "pmid" u = none := by
      cases hl : linkedIdOf result "pmid" u with
      | none => rfl
      | some e => exact absurd ((linkedIdOf_isSome_iff result "pmid" u).1 ⟨e, hl⟩) hno
    rw [primaryFields_uid, ← primaryFields_pmid, hpmid, hnone]
    exact ⟨rfl, rfl⟩

/-- Witness of C20 (amended): the example summary merged with an empty side
dataset; `A` gets its pmid `111` as `uid`, `B` has no pmid and gets
`undefined`. -/
theorem merge_uid_becomes_pmid_witness :
    mergeDemographicAndSummaryResults (.obj []) docABTitled = .ok (.arr [
      .obj [("uid", .str "111"), ("title", .str "On flu"), ("authors", .undefined),
        ("pubdate", .undefined), ("pmid", .str "111"), ("pmcid", .str "A")],
      .obj [("uid", .undefined), ("title", .str "On colds"), ("authors", .undefined),
        ("pubdate", .undefined), ("pmid", .undefined), ("pmcid", .str "B")]]) ∧
    ∃ records, mergeDemographicAndSummaryResults (.obj []) docABTitled = .ok (.arr records) ∧
      records.length = ["A", "B"].length ∧
      ∀ (i : Nat) (u : String), ["A", "B"][i]? = some u →
        ∃ r, records[i]? = some (JVal.obj r) ∧
          lookupProp "uid" r = lookupProp "pmid" r ∧
          lookupProp "pmid" r = some (match linkedIdOf resultABTitled "pmid" u with
            | some e => valueOf e
            | none => JVal.undefined) ∧
          lookupProp "pmcid" r = some (JVal.str u) ∧
          (¬ HasLinkedId resultABTitled "pmid" u →
            lookupProp "uid" r = some JVal.undefined ∧
            lookupProp "pmid" r = some JVal.undefined) :=
  ⟨rfl, merge_uid_becomes_pmid docABTitled resultABTitled ["A", "B"] rfl rfl
    resultABTitled_wellFormed resultABTitled_selfNamed (by decide)⟩

/-- C15 (failing input): with the api key `KEY` configured, the three urls
requested by `search` end in `&api_key=KEY`, but the E-Fetch url requested by
`fetchResultDetail` is built without the api key parameter. -/
theorem fetchResultDetail_url_without_api_key :
    (search (some "KEY") keyedTransport (.str "flu")).requests =
      ["https://eutils.ncbi.nlm.nih.gov/entrez/eutils/esearch.fcgi?db=pubmed&term=(Therapy/Broad[filter]) AND (flu)&retmode=json&usehistory=y&api_key=KEY",
       "https://eutils.ncbi.nlm.nih.gov/entrez/eutils/elink.fcgi?db=pmc&dbfrom=pubmed&linkname=pubmed_pmc&query_key=1&WebEnv=NCID_1_2&cmd=neighbor_history&retmode=json&api_key=KEY",
       "https://eutils.ncbi.nlm.nih.gov/entrez/eutils/esummary.fcgi?db=pubmed&query_key=2&WebEnv=NCID_3_4&retmode=json&retmax=100&api_key=KEY"] ∧
    (fetchResultDetail (some "KEY") xmlTransport
        (fun _ => { err := .null, parsed := articleTwoSections }) lowerCase (.str "123")).requests =
      ["https://eutils.ncbi.nlm.nih.gov/entrez/eutils/efetch.fcgi?db=pmc&id=123&retmode=xml"] :=
  ⟨by decide, rfl⟩

/-- C16 (failing input): for a parsed article whose second abstract section
has no paragraph, `fetchResultDetail` delivers the section mapping built so
far together with an `error` key, where an abstract without sections or
paragraph, or an article without abstract, gives the single-entry mapping
of `errorOf`. -/
theorem fetchResultDetail_partial_sections_with_error :
    (fetchResultDetail none xmlTransport
        (fun _ => { err := .null, parsed := articleSecondSectionBare }) lowerCase (.str "123")).delivered =
      [.obj [("background", .str "text1"), ("error", .str "unexpected document format")]] ∧
    (fetchResultDetail none xmlTransport
        (fun _ => { err := .null, parsed := articleNoAbstract }) lowerCase (.str "123")).delivered =
      [.obj [("error", .str "article does not contain an abstract")]] :=
  ⟨rfl, rfl⟩

end PubMiner
